import Mathlib

/-!
Verification development for the CityO spatial generation pipeline
(`src/main.cpp`): road/arc-length geometry, zone strips, the chunked
zone-flag grid, the undo/redo command log, lot derivation and building
placement.

Modelling conventions (shallow embedding):
* `float` is modelled by `ℚ`; `std::sqrt` by `ratSqrt` (exact on perfect
  squares, which is where the concrete theorems evaluate it).
* The C++ loop `for (float d = 0; d <= total; d += step)` is modelled by
  the exact rational sample list `k * step` for `k ≤ ⌊total/step⌋`
  (float accumulation drift is not modelled).
* 8-bit flag bytes are modelled by `ℕ`; `v &= ~mask` for an 8-bit mask is
  `v &&& (255 - mask)` (for `mask ≤ 255`, `255 - mask` is the bitwise
  complement within the low byte).
* Fallible lookups (`FindRoadIndexById` returning `-1`) return `Option`.
-/

attribute [local semireducible] Rat.mul Rat.add Rat.sub Rat.inv

namespace CityO

/-- `glm::vec3` with rational components (`y` is carried even though the
ground plane pins it to 0, mirroring the source). -/
structure Vec3 where
  x : ℚ
  y : ℚ
  z : ℚ
deriving DecidableEq, Repr

def defVec : Vec3 := ⟨0, 0, 0⟩

def vadd (a b : Vec3) : Vec3 := ⟨a.x + b.x, a.y + b.y, a.z + b.z⟩

def vsub (a b : Vec3) : Vec3 := ⟨a.x - b.x, a.y - b.y, a.z - b.z⟩

def vscale (k : ℚ) (a : Vec3) : Vec3 := ⟨k * a.x, k * a.y, k * a.z⟩

/-- `glm::dot`. -/
def vdot (a b : Vec3) : ℚ := a.x * b.x + a.y * b.y + a.z * b.z

/-- `glm::cross`. -/
def vcross (a b : Vec3) : Vec3 :=
  ⟨a.y * b.z - a.z * b.y, a.z * b.x - a.x * b.z, a.x * b.y - a.y * b.x⟩

/-- structural integer square root (digit-by-digit; the first argument
is recursion fuel, `n` itself is always enough).  Kernel-reducible,
unlike `Nat.sqrt`. -/
def isqrtFuel : ℕ → ℕ → ℕ
  | 0, _ => 0
  | fuel + 1, n =>
    if n < 2 then n
    else
      let s := 2 * isqrtFuel fuel (n / 4)
      if (s + 1) * (s + 1) ≤ n then s + 1 else s

def isqrt (n : ℕ) : ℕ := isqrtFuel n n

/-- rational square root modelling `std::sqrt`: exact on perfect squares
(numerator and denominator roots taken separately, like `Rat.sqrt`). -/
def ratSqrt (q : ℚ) : ℚ := mkRat (isqrt q.num.toNat) (isqrt q.den)

/-- `glm::normalize` (division by a zero length yields the zero vector in
`ℚ`; all call sites guard with a squared-length epsilon first). -/
def normalize3 (v : Vec3) : Vec3 :=
  let l := ratSqrt (v.x * v.x + v.y * v.y + v.z * v.z)
  vscale (1 / l) v

/-- `Clamp` from `main.cpp`. -/
def Clamp (v a b : ℚ) : ℚ := if v < a then a else if v > b then b else v

/-- epsilon `1e-6f` used by the source's degenerate-geometry guards. -/
def EPS6 : ℚ := 1 / 1000000

/-- epsilon `1e-8f` used by `ClosestParamOnSegmentXZ`. -/
def EPS8 : ℚ := 1 / 100000000

/-- `1e30f`, the initial best distance in `ClosestDistanceAlongRoadSq`. -/
def BIG : ℚ := 10 ^ 30

/-- `LenXZ`: ground-plane distance between two points. -/
def LenXZ (a b : Vec3) : ℚ :=
  ratSqrt ((b.x - a.x) * (b.x - a.x) + (b.z - a.z) * (b.z - a.z))

/-! ### Constants (`main.cpp` lines 58, 318-330) -/

def CHUNK_SIZE_M : ℚ := 1024
def ZONE_DIM : ℤ := 128
def ZONE_FLAG_BUILDABLE : ℕ := 1
def ZONE_FLAG_ZONED : ℕ := 2
def ZONE_FLAG_BLOCKED : ℕ := 4
def ZONE_CELL_M : ℚ := CHUNK_SIZE_M / 128
def ZONE_DEPTH_CELLS : ℕ := 6
def ZONE_DEPTH_M : ℚ := ZONE_DEPTH_CELLS * ZONE_CELL_M
def ROAD_WIDTH_M : ℚ := 16
def ROAD_HALF_M : ℚ := ROAD_WIDTH_M * (1 / 2)
def ZONE_TYPE_MASK : ℕ := 24

/-! ### Road geometry -/

/-- cumulative-length helper: given the previous point, the remaining
points and the accumulated length, the tail of the cumulative array. -/
def cumAux : Vec3 → List Vec3 → ℚ → List ℚ
  | _, [], _ => []
  | p, q :: qs, acc => (acc + LenXZ p q) :: cumAux q qs (acc + LenXZ p q)

/-- `Road::rebuildCum` as a function on the point list. -/
def cumOfPts : List Vec3 → List ℚ
  | [] => []
  | p :: rest => 0 :: cumAux p rest 0

structure Road where
  id : ℤ
  pts : List Vec3
  cumLen : List ℚ
deriving DecidableEq, Repr

def Road.rebuildCum (r : Road) : Road := { r with cumLen := cumOfPts r.pts }

/-- the default `Road` used to model `s.roads[idx]` access results. -/
def defRoad : Road := ⟨0, [], []⟩

/-- `Road::totalLen`: 0 when the cumulative array is empty, else its back. -/
def Road.totalLen (r : Road) : ℚ := (r.cumLen.getLast?).getD 0

/-- the `while (i + 1 < cumLen.size() && cumLen[i+1] < d) i++;` scan of
`Road::pointAt`, returning the chosen segment index. -/
def findSeg : List ℚ → ℚ → ℕ
  | _ :: c1 :: rest, d => if c1 < d then findSeg (c1 :: rest) d + 1 else 0
  | _, _ => 0

/-- `Road::pointAt`: position and tangent at arc length `d`. -/
def Road.pointAt (r : Road) (d : ℚ) : Vec3 × Vec3 :=
  if r.pts.length < 2 ∨ r.cumLen.length ≠ r.pts.length then
    (r.pts.headD defVec, ⟨1, 0, 0⟩)
  else
    let d := Clamp d 0 r.totalLen
    let i := findSeg r.cumLen d
    let a := r.pts.getD i defVec
    let b := r.pts.getD (i + 1) defVec
    let segLen := max EPS6 (LenXZ a b)
    let t := (d - r.cumLen.getD i 0) / segLen
    let l := LenXZ a b
    let dir0 : Vec3 := ⟨b.x - a.x, 0, b.z - a.z⟩
    let tan := if l > EPS6 then vscale (1 / l) dir0 else dir0
    let p := vadd a (vscale t (vsub b a))
    (⟨p.x, 0, p.z⟩, tan)

/-- `FindRoadIndexById` (source returns `-1` for not-found). -/
def FindRoadIndexById : List Road → ℤ → Option ℕ
  | [], _ => none
  | r :: rest, i => if r.id = i then some 0 else (FindRoadIndexById rest i).map (· + 1)

/-- `ClosestParamOnSegmentXZ`: clamped parametric projection in the
ground plane; returns `(t, closest)`. -/
def ClosestParamOnSegmentXZ (p a b : Vec3) : ℚ × Vec3 :=
  let apx := p.x - a.x
  let apz := p.z - a.z
  let abx := b.x - a.x
  let abz := b.z - a.z
  let ab2 := abx * abx + abz * abz
  let t0 := if ab2 > EPS8 then (apx * abx + apz * abz) / ab2 else 0
  let t := Clamp t0 0 1
  let c := vadd a (vscale t (vsub b a))
  (t, ⟨c.x, 0, c.z⟩)

/-- accumulator of the segment scan in `ClosestDistanceAlongRoadSq`. -/
structure ClosestAcc where
  bestDistSq : ℚ
  bestAlong : ℚ
  bestTan : Vec3
deriving DecidableEq, Repr

/-- squared ground-plane distance from `p` to segment `i` of `r`. -/
def segDistSq (r : Road) (p : Vec3) (i : ℕ) : ℚ :=
  let a := r.pts.getD i defVec
  let b := r.pts.getD (i + 1) defVec
  let c := (ClosestParamOnSegmentXZ p a b).2
  (p.x - c.x) * (p.x - c.x) + (p.z - c.z) * (p.z - c.z)

/-- arc length reported for segment `i` when it wins the scan. -/
def segAlong (r : Road) (p : Vec3) (i : ℕ) : ℚ :=
  let a := r.pts.getD i defVec
  let b := r.pts.getD (i + 1) defVec
  let t := (ClosestParamOnSegmentXZ p a b).1
  (if i < r.cumLen.length then r.cumLen.getD i 0 else 0) + t * LenXZ a b

/-- tangent reported for segment `i` when it wins the scan. -/
def segTan (r : Road) (i : ℕ) : Vec3 :=
  let a := r.pts.getD i defVec
  let b := r.pts.getD (i + 1) defVec
  let l := LenXZ a b
  let dir0 : Vec3 := ⟨b.x - a.x, 0, b.z - a.z⟩
  if l > EPS6 then vscale (1 / l) dir0 else dir0

/-- one step of the segment scan: keep the strictly smaller distance. -/
def closestStep (r : Road) (p : Vec3) (acc : ClosestAcc) (i : ℕ) : ClosestAcc :=
  if segDistSq r p i < acc.bestDistSq then
    ⟨segDistSq r p i, segAlong r p i, segTan r i⟩
  else acc

/-- `ClosestDistanceAlongRoadSq`: minimum squared distance to the road
with the arc length and tangent of the winning segment. -/
def ClosestDistanceAlongRoadSq (r : Road) (p : Vec3) : ClosestAcc :=
  if r.pts.length < 2 then ⟨BIG, 0, ⟨1, 0, 0⟩⟩
  else (List.range (r.pts.length - 1)).foldl (closestStep r p) ⟨BIG, 0, ⟨1, 0, 0⟩⟩

/-! ### Zones, lots, world state -/

inductive ZoneType where
  | Residential
  | Commercial
  | Industrial
  | Office
deriving DecidableEq, Repr

structure ZoneStrip where
  id : ℤ
  roadId : ℤ
  d0 : ℚ
  d1 : ℚ
  sideMask : ℕ
  type : ZoneType
  depth : ℚ
deriving DecidableEq, Repr

structure LotCell where
  roadId : ℤ
  side : ℤ
  d0 : ℚ
  d1 : ℚ
  center : Vec3
  forward : Vec3
  right : Vec3
  zoned : Bool
  zoneType : ZoneType
deriving DecidableEq, Repr

/-- a zone-grid cell: chunk coordinates plus in-chunk indices. -/
structure CellKey where
  cx : ℤ
  cz : ℤ
  xi : ℤ
  zi : ℤ
deriving DecidableEq, Repr

/-- the sparse chunked flag grid as a total function (missing chunks and
out-of-range reads are 0, as in `ZoneChunk::get`). -/
def ZGrid := CellKey → ℕ

def emptyGrid : ZGrid := fun _ => 0

structure AppState where
  nextRoadId : ℤ
  nextZoneId : ℤ
  roads : List Road
  zones : List ZoneStrip
  lots : List LotCell
  grid : ZGrid
  water : List CellKey
  roadsDirty : Bool
  zonesDirty : Bool
  housesDirty : Bool

/-- `ZonesOverlap`: closed-interval overlap of two order-independent
intervals. -/
def ZonesOverlap (a0 a1 b0 b1 : ℚ) : Bool :=
  let lo := max (min a0 a1) (min b0 b1)
  let hi := min (max a0 a1) (max b0 b1)
  decide (lo ≤ hi)

/-- `IsLotZoned`: the first strip on the lot's road whose side mask
covers the lot's side and whose interval overlaps the lot window; the
source returns `true` plus the strip's type through an out-parameter,
modelled as `Option ZoneType`. -/
def IsLotZoned (s : AppState) (lot : LotCell) : Option ZoneType :=
  let sideBit : ℕ := if lot.side < 0 then 1 else 2
  (s.zones.find? fun z =>
    decide (z.roadId = lot.roadId) &&
    decide (z.sideMask &&& sideBit ≠ 0) &&
    ZonesOverlap lot.d0 lot.d1 z.d0 z.d1).map (·.type)

/-- `ZoneOverlapsExisting`: does any existing strip on the same road
overlap `[d0,d1]`?  (Note: the side mask is not consulted.) -/
def ZoneOverlapsExisting (s : AppState) (roadId : ℤ) (d0 d1 : ℚ) : Bool :=
  s.zones.any fun z =>
    decide (z.roadId = roadId) && ZonesOverlap d0 d1 z.d0 z.d1

/-! ### Zone grid rebuild (`RebuildZoneGrid` and the stamping passes) -/

/-- `WorldToZoneCell`: chunk plus in-chunk cell of a world position, with
the source's in-chunk bounds check. -/
def worldToZoneCell (p : Vec3) : Option CellKey :=
  let cx : ℤ := ⌊p.x / CHUNK_SIZE_M⌋
  let cz : ℤ := ⌊p.z / CHUNK_SIZE_M⌋
  let xi : ℤ := ⌊(p.x - cx * CHUNK_SIZE_M) / ZONE_CELL_M⌋
  let zi : ℤ := ⌊(p.z - cz * CHUNK_SIZE_M) / ZONE_CELL_M⌋
  if 0 ≤ xi ∧ xi < ZONE_DIM ∧ 0 ≤ zi ∧ zi < ZONE_DIM then some ⟨cx, cz, xi, zi⟩
  else none

/-- `GetZoneFlagsAt` (no bounds pre-check; `ZoneChunk::get` returns 0 for
out-of-range indices and missing chunks read as the 0-filled grid). -/
def getZoneFlagsAt (g : ZGrid) (p : Vec3) : ℕ :=
  let cx : ℤ := ⌊p.x / CHUNK_SIZE_M⌋
  let cz : ℤ := ⌊p.z / CHUNK_SIZE_M⌋
  let xi : ℤ := ⌊(p.x - cx * CHUNK_SIZE_M) / ZONE_CELL_M⌋
  let zi : ℤ := ⌊(p.z - cz * CHUNK_SIZE_M) / ZONE_CELL_M⌋
  if 0 ≤ xi ∧ xi < ZONE_DIM ∧ 0 ≤ zi ∧ zi < ZONE_DIM then g ⟨cx, cz, xi, zi⟩
  else 0

/-- `SetZoneCellFlags`: clear `clrM`, set `setM` (guarded by
`ZoneChunk::set`'s in-range check). -/
def setZoneCellFlags (g : ZGrid) (c : CellKey) (setM clrM : ℕ) : ZGrid :=
  fun k =>
    if k = c ∧ 0 ≤ c.xi ∧ c.xi < ZONE_DIM ∧ 0 ≤ c.zi ∧ c.zi < ZONE_DIM then
      (g c &&& (255 - clrM)) ||| setM
    else g k

/-- the sample list of `for (q = lo; q <= hi; q += step)` in exact
rational arithmetic (`step > 0`). -/
def sampleFromTo (lo hi step : ℚ) : List ℚ :=
  if hi < lo then []
  else (List.range (Int.toNat ⌊(hi - lo) / step⌋ + 1)).map fun k => lo + (k : ℚ) * step

/-- cells written by `StampRoadInfluence` for one road, in write order. -/
def influenceCellList (r : Road) : List CellKey :=
  if r.pts.length < 2 then []
  else
    (sampleFromTo 0 r.totalLen (ZONE_CELL_M * (1 / 2))).flatMap fun d =>
      let pt := r.pointAt d
      if vdot pt.2 pt.2 < EPS6 then []
      else
        let right := normalize3 (vcross ⟨0, 1, 0⟩ pt.2)
        ([-1, 1] : List ℚ).flatMap fun side =>
          (List.range ZONE_DEPTH_CELLS).filterMap fun row =>
            let offset := ROAD_HALF_M + ((row : ℚ) + 1 / 2) * ZONE_CELL_M
            worldToZoneCell (vadd pt.1 (vscale (side * offset) right))

/-- cells written by `StampRoadSurfaceBlocked` for one road, in write
order. -/
def surfaceCellList (r : Road) : List CellKey :=
  if r.pts.length < 2 then []
  else
    (sampleFromTo 0 r.totalLen (ZONE_CELL_M * (1 / 2))).flatMap fun d =>
      let pt := r.pointAt d
      if vdot pt.2 pt.2 < EPS6 then []
      else
        let right := normalize3 (vcross ⟨0, 1, 0⟩ pt.2)
        (sampleFromTo (-ROAD_HALF_M) ROAD_HALF_M (ZONE_CELL_M * (1 / 2))).filterMap
          fun off => worldToZoneCell (vadd pt.1 (vscale off right))

/-- `StampRoadInfluence`: mark the buildable band on both sides. -/
def stampRoadInfluence (g : ZGrid) (r : Road) : ZGrid :=
  (influenceCellList r).foldl (fun g c => setZoneCellFlags g c ZONE_FLAG_BUILDABLE 0) g

/-- `StampRoadSurfaceBlocked`: block the surface band, clearing
buildable/zoned/type. -/
def stampRoadSurfaceBlocked (g : ZGrid) (r : Road) : ZGrid :=
  (surfaceCellList r).foldl
    (fun g c =>
      setZoneCellFlags g c ZONE_FLAG_BLOCKED
        (ZONE_FLAG_BUILDABLE ||| ZONE_FLAG_ZONED ||| ZONE_TYPE_MASK)) g

/-- `StampWaterMask`: every water cell is blocked, clearing
buildable/zoned/type (`water` lists the non-zero water-mask cells). -/
def stampWaterMask (g : ZGrid) (water : List CellKey) : ZGrid :=
  water.foldl
    (fun g c =>
      setZoneCellFlags g c ZONE_FLAG_BLOCKED
        (ZONE_FLAG_BUILDABLE ||| ZONE_FLAG_ZONED ||| ZONE_TYPE_MASK)) g

/-- `RebuildZoneGrid`: clear everything, stamp influence then surface per
road, then the water mask (skipped entirely when there are no roads). -/
def rebuildZoneGrid (roads : List Road) (water : List CellKey) : ZGrid :=
  if roads.isEmpty then emptyGrid
  else
    stampWaterMask
      (roads.foldl (fun g r => stampRoadSurfaceBlocked (stampRoadInfluence g r) r) emptyGrid)
      water

/-! ### Command log (`ICommand` hierarchy as a closed sum) -/

/-- the six commands with their mutable members (`applied`, `removed`,
`did`, and the clamped `pointIndex` of `CmdDeleteRoadPoint::undoIt`). -/
inductive Cmd where
  | addRoad (road : Road) (applied : Bool)
  | extendRoad (roadId : ℤ) (added : List Vec3) (atStart : Bool)
  | moveRoadPoint (roadId : ℤ) (pointIndex : ℤ) (oldPos newPos : Vec3)
  | deleteRoadPoint (roadId : ℤ) (pointIndex : ℤ) (removed : Vec3) (did : Bool)
  | addZone (zone : ZoneStrip) (applied : Bool)
  | clearZonesForRoad (roadId : ℤ) (removed : List ZoneStrip) (applied : Bool)
deriving DecidableEq, Repr

/-- replace the element at index `i` (no-op when out of range). -/
def modifyIdx : List Road → ℕ → (Road → Road) → List Road
  | [], _, _ => []
  | r :: rest, 0, f => f r :: rest
  | r :: rest, n + 1, f => r :: modifyIdx rest n f

/-- `doIt` of each command; returns the new state and the command with
its mutable members updated. -/
def Cmd.doIt : Cmd → AppState → AppState × Cmd
  | .addRoad road applied, s =>
    let s := if !applied then { s with roads := s.roads ++ [road] } else s
    ({ s with roadsDirty := true }, .addRoad road true)
  | .extendRoad roadId added atStart, s =>
    match FindRoadIndexById s.roads roadId with
    | none => (s, .extendRoad roadId added atStart)
    | some idx =>
      if added.isEmpty then (s, .extendRoad roadId added atStart)
      else
        let roads := modifyIdx s.roads idx fun r =>
          Road.rebuildCum { r with pts := if atStart then added ++ r.pts else r.pts ++ added }
        ({ s with roads := roads, roadsDirty := true }, .extendRoad roadId added atStart)
  | .moveRoadPoint roadId pi op np, s =>
    match FindRoadIndexById s.roads roadId with
    | none => (s, .moveRoadPoint roadId pi op np)
    | some idx =>
      let r := s.roads.getD idx defRoad
      if pi < 0 ∨ (r.pts.length : ℤ) ≤ pi then (s, .moveRoadPoint roadId pi op np)
      else
        let roads := modifyIdx s.roads idx fun r =>
          Road.rebuildCum { r with pts := r.pts.set pi.toNat ⟨np.x, 0, np.z⟩ }
        ({ s with roads := roads, roadsDirty := true, housesDirty := true },
          .moveRoadPoint roadId pi op np)
  | .deleteRoadPoint roadId pi rm did, s =>
    match FindRoadIndexById s.roads roadId with
    | none => (s, .deleteRoadPoint roadId pi rm did)
    | some idx =>
      let r := s.roads.getD idx defRoad
      if pi < 0 ∨ (r.pts.length : ℤ) ≤ pi then (s, .deleteRoadPoint roadId pi rm did)
      else if r.pts.length ≤ 2 then (s, .deleteRoadPoint roadId pi rm did)
      else
        let rmv := r.pts.getD pi.toNat defVec
        let roads := modifyIdx s.roads idx fun r =>
          Road.rebuildCum { r with pts := r.pts.eraseIdx pi.toNat }
        ({ s with roads := roads, roadsDirty := true, housesDirty := true },
          .deleteRoadPoint roadId pi rmv true)
  | .addZone zone applied, s =>
    let s := if !applied then { s with zones := s.zones ++ [zone] } else s
    ({ s with zonesDirty := true, housesDirty := true }, .addZone zone true)
  | .clearZonesForRoad roadId removed applied, s =>
    let s :=
      if !applied then { s with zones := s.zones.filter fun z => z.roadId ≠ roadId } else s
    ({ s with zonesDirty := true, housesDirty := true },
      .clearZonesForRoad roadId removed true)

/-- `undoIt` of each command. -/
def Cmd.undoIt : Cmd → AppState → AppState × Cmd
  | .addRoad road applied, s =>
    let roads :=
      match FindRoadIndexById s.roads road.id with
      | none => s.roads
      | some idx => s.roads.eraseIdx idx
    ({ s with roads := roads, roadsDirty := true, housesDirty := true },
      .addRoad road applied)
  | .extendRoad roadId added atStart, s =>
    match FindRoadIndexById s.roads roadId with
    | none => (s, .extendRoad roadId added atStart)
    | some idx =>
      let r := s.roads.getD idx defRoad
      if r.pts.length ≤ added.length then (s, .extendRoad roadId added atStart)
      else
        let roads := modifyIdx s.roads idx fun r =>
          Road.rebuildCum
            { r with
              pts :=
                if atStart then r.pts.drop added.length
                else r.pts.take (r.pts.length - added.length) }
        ({ s with roads := roads, roadsDirty := true }, .extendRoad roadId added atStart)
  | .moveRoadPoint roadId pi op np, s =>
    match FindRoadIndexById s.roads roadId with
    | none => (s, .moveRoadPoint roadId pi op np)
    | some idx =>
      let r := s.roads.getD idx defRoad
      if pi < 0 ∨ (r.pts.length : ℤ) ≤ pi then (s, .moveRoadPoint roadId pi op np)
      else
        let roads := modifyIdx s.roads idx fun r =>
          Road.rebuildCum { r with pts := r.pts.set pi.toNat ⟨op.x, 0, op.z⟩ }
        ({ s with roads := roads, roadsDirty := true, housesDirty := true },
          .moveRoadPoint roadId pi op np)
  | .deleteRoadPoint roadId pi rm did, s =>
    if !did then (s, .deleteRoadPoint roadId pi rm did)
    else
      match FindRoadIndexById s.roads roadId with
      | none => (s, .deleteRoadPoint roadId pi rm did)
      | some idx =>
        let r := s.roads.getD idx defRoad
        let pi2 := min (max pi 0) (r.pts.length : ℤ)
        let roads := modifyIdx s.roads idx fun r =>
          Road.rebuildCum { r with pts := r.pts.insertIdx pi2.toNat rm }
        ({ s with roads := roads, roadsDirty := true, housesDirty := true },
          .deleteRoadPoint roadId pi2 rm did)
  | .addZone zone applied, s =>
    ({ s with
        zones := s.zones.eraseP (fun z => z.id = zone.id),
        zonesDirty := true, housesDirty := true },
      .addZone zone applied)
  | .clearZonesForRoad roadId removed applied, s =>
    ({ s with zones := s.zones ++ removed, zonesDirty := true, housesDirty := true },
      .clearZonesForRoad roadId removed applied)

/-- `CommandStack` (head of each list is the stack top). -/
structure CommandStack where
  undo : List Cmd
  redo : List Cmd
deriving DecidableEq, Repr

/-- `CommandStack::exec`: run `doIt`, push on undo, clear redo. -/
def exec (p : AppState × CommandStack) (c : Cmd) : AppState × CommandStack :=
  let r := c.doIt p.1
  (r.1, ⟨r.2 :: p.2.undo, []⟩)

/-- `CommandStack::doUndo`. -/
def doUndo (p : AppState × CommandStack) : AppState × CommandStack :=
  match p.2.undo with
  | [] => p
  | c :: rest =>
    let r := c.undoIt p.1
    (r.1, ⟨rest, r.2 :: p.2.redo⟩)

/-- `CommandStack::doRedo`. -/
def doRedo (p : AppState × CommandStack) : AppState × CommandStack :=
  match p.2.redo with
  | [] => p
  | c :: rest =>
    let r := c.doIt p.1
    (r.1, ⟨r.2 :: p.2.undo, rest⟩)

/-! ### Building placement (`RebuildHousesFromLots`)

The asset catalog is an external collaborator (spec section 6); it is
modelled as opaque data.  The four category strings produced by
`ZoneTypeCategory` are in bijection with `ZoneType`, so
`resolveCategoryAsset` is modelled on `ZoneType` directly.  `atan2` is
not rational-valued, so it is a parameter of the embedding. -/

structure AssetDef where
  meshRelPathEmpty : Bool
  defaultScale : Vec3
  footprintM : ℚ × ℚ
deriving DecidableEq, Repr

structure AssetCatalog where
  resolveCategoryAsset : ZoneType → ℕ
  find : ℕ → Option AssetDef

/-- `BaseSizeForZone`. -/
def BaseSizeForZone : ZoneType → Vec3
  | .Commercial => ⟨12, 8, 14⟩
  | .Industrial => ⟨14, 8, 20⟩
  | .Office => ⟨25, 30, 25⟩
  | .Residential => ⟨8, 6, 12⟩

/-- `ApplyAssetScale`. -/
def ApplyAssetScale (assets : AssetCatalog) (assetId : ℕ) (baseSize : Vec3) : Vec3 :=
  match assets.find assetId with
  | none => baseSize
  | some ad =>
    let scaled := if ad.meshRelPathEmpty then baseSize else ad.defaultScale
    if scaled.x ≤ 0 ∨ scaled.y ≤ 0 ∨ scaled.z ≤ 0 then baseSize else scaled

/-- `GetAssetFootprint`. -/
def GetAssetFootprint (assets : AssetCatalog) (assetId : ℕ) (fallback : ℚ × ℚ) : ℚ × ℚ :=
  match assets.find assetId with
  | none => fallback
  | some ad =>
    if ad.meshRelPathEmpty then fallback
    else if 0 < ad.footprintM.1 ∧ 0 < ad.footprintM.2 then ad.footprintM else fallback

def U32 : ℕ := 2 ^ 32

/-- `Hash32` on 32-bit words modelled as `ℕ` mod `2^32`. -/
def Hash32 (x0 : ℕ) : ℕ :=
  let x := x0 % U32
  let x := x ^^^ (x >>> 16)
  let x := (x * 0x7feb352d) % U32
  let x := x ^^^ (x >>> 15)
  let x := (x * 0x846ca68b) % U32
  x ^^^ (x >>> 16)

/-- `std::llround`: round half away from zero. -/
def llroundQ (q : ℚ) : ℤ := if q < 0 then -⌊-q + 1 / 2⌋ else ⌊q + 1 / 2⌋

/-- two's-complement cast of a signed value to `uint32_t`. -/
def toU32 (z : ℤ) : ℕ := (z % (U32 : ℤ)).toNat

/-- the deterministic seed hash of `RebuildHousesFromLots` (position,
road id, side). -/
def seedOf (pos : Vec3) (roadId : ℤ) (side : ℤ) : ℕ :=
  let hx := toU32 (llroundQ (pos.x * 10))
  let hz := toU32 (llroundQ (pos.z * 10))
  Hash32
    (hx ^^^ (hz * 1664525) % U32 ^^^ (toU32 roadId * 131071) % U32 ^^^
      (if side < 0 then 0x9e3779b9 else 0))

structure BuildingInstance where
  asset : ℕ
  localPos : Vec3
  yaw : ℚ
  scale : Vec3
  seed : ℕ
deriving DecidableEq, Repr

structure HouseAnim where
  pos : Vec3
  spawnTime : ℚ
  forward : Vec3
  asset : ℕ
  scale : Vec3
  seed : ℕ
deriving DecidableEq, Repr

structure PlacedHouse where
  pos : Vec3
  radius : ℚ
deriving DecidableEq, Repr

/-- mutable state threaded through the placement loop (the rendering
transform buffers `houseStatic` / `houseStaticByChunk` carry the same
`(pos, facing, scale)` data as the instances and are not modelled). -/
structure PlaceAcc where
  occupied : List (ℤ × ℤ)
  placed : List PlacedHouse
  placedByCell : List ((ℤ × ℤ) × List ℕ)
  houseAnim : List HouseAnim
  buildingChunks : List ((ℤ × ℤ) × BuildingInstance)
deriving DecidableEq, Repr

/-- `placedByCell` bucket lookup (`unordered_map::find`). -/
def bucketLookup (m : List ((ℤ × ℤ) × List ℕ)) (k : ℤ × ℤ) : Option (List ℕ) :=
  (m.find? fun e => e.1 = k).map (·.2)

/-- `placedByCell[key].push_back(idx)`. -/
def bucketPush (m : List ((ℤ × ℤ) × List ℕ)) (k : ℤ × ℤ) (v : ℕ) :
    List ((ℤ × ℤ) × List ℕ) :=
  match m with
  | [] => [(k, [v])]
  | e :: rest => if e.1 = k then (e.1, e.2 ++ [v]) :: rest else e :: bucketPush rest k v

/-- coarse-grid key of a position (`isOccupied` / `markOccupied` with
cell 6 m, `addPlaced` / `canPlace` with cell 8 m). -/
def occKey (pos : Vec3) (cell : ℚ) : ℤ × ℤ := (⌊pos.x / cell⌋, ⌊pos.z / cell⌋)

/-- the integers `-r .. r` (the `canPlace` search window). -/
def rangeList (r : ℤ) : List ℤ :=
  (List.range (2 * r.toNat + 1)).map fun k => -r + (k : ℤ)

/-- `canPlace`: no previously placed instance within the summed radii
plus margin, searched over the spatial-hash buckets. -/
def canPlace (placed : List PlacedHouse) (buckets : List ((ℤ × ℤ) × List ℕ))
    (pos : Vec3) (radius : ℚ) : Bool :=
  let gx := ⌊pos.x / 8⌋
  let gz := ⌊pos.z / 8⌋
  let range : ℤ := ⌈radius / 8⌉ + 1
  let minDist := radius + 1 / 2
  (rangeList range).all fun dz =>
    (rangeList range).all fun dx =>
      match bucketLookup buckets (gx + dx, gz + dz) with
      | none => true
      | some idxs =>
        idxs.all fun i =>
          let other := placed.getD i ⟨defVec, 0⟩
          let minPair := minDist + other.radius
          let dv := vsub pos other.pos
          decide (¬ vdot dv dv < minPair * minPair)

/-- `std::numeric_limits<float>::max()` (any value larger than every
squared distance in play behaves identically). -/
def FLT_MAX : ℚ := 2 ^ 128

/-- `minCenterlineClearSq` inside `RebuildHousesFromLots`. -/
def minCenterlineClearSq (roads : List Road) (pos : Vec3) : ℚ :=
  roads.foldl
    (fun best r =>
      if r.pts.length < 2 then best
      else min best (ClosestDistanceAlongRoadSq r pos).bestDistSq)
    FLT_MAX

/-- one iteration of the lot loop of `RebuildHousesFromLots`. -/
def placeStep (atan2I : ℚ → ℚ → ℚ) (s : AppState) (assets : AssetCatalog)
    (animate : Bool) (nowSec : ℚ) (acc : PlaceAcc) (c : LotCell) : PlaceAcc :=
  if c.zoned = false then acc
  else if getZoneFlagsAt s.grid c.center &&& ZONE_FLAG_BLOCKED ≠ 0 then acc
  else
    let assetId := assets.resolveCategoryAsset c.zoneType
    let baseSize := BaseSizeForZone c.zoneType
    let houseSize := ApplyAssetScale assets assetId baseSize
    let footprint := GetAssetFootprint assets assetId (baseSize.x, baseSize.z)
    let alignedAlong := max ((⌈footprint.1 / ZONE_CELL_M⌉ : ℚ) * ZONE_CELL_M) ZONE_CELL_M
    let alignedDepth := max ((⌈footprint.2 / ZONE_CELL_M⌉ : ℚ) * ZONE_CELL_M) ZONE_CELL_M
    if ZONE_DEPTH_M < alignedDepth then acc
    else
      let radius := (1 / 2) * ratSqrt (alignedAlong * alignedAlong + alignedDepth * alignedDepth)
      let pos : Vec3 := ⟨c.center.x, houseSize.y * (1 / 2), c.center.z⟩
      let distSq := minCenterlineClearSq s.roads pos
      let clearFromEdge := ratSqrt distSq - ROAD_HALF_M
      if clearFromEdge < 0 then acc
      else if acc.occupied.contains (occKey pos 6) then acc
      else if canPlace acc.placed acc.placedByCell pos radius = false then acc
      else
        let facing := normalize3 (vscale (-(c.side : ℚ)) c.right)
        let seed := seedOf pos c.roadId c.side
        let yaw := atan2I facing.x facing.z
        let anim :=
          if animate then
            acc.houseAnim ++
              [⟨pos, nowSec + ((seed % 120 : ℕ) : ℚ) / 1000, facing, assetId, houseSize, seed⟩]
          else acc.houseAnim
        let ck : ℤ × ℤ := (⌊pos.x / CHUNK_SIZE_M⌋, ⌊pos.z / CHUNK_SIZE_M⌋)
        let inst : BuildingInstance := ⟨assetId, pos, yaw, houseSize, seed⟩
        { occupied := acc.occupied ++ [occKey pos 6],
          placed := acc.placed ++ [⟨pos, radius⟩],
          placedByCell := bucketPush acc.placedByCell (occKey pos 8) acc.placed.length,
          houseAnim := anim,
          buildingChunks := acc.buildingChunks ++ [(ck, inst)] }

/-- `RebuildHousesFromLots`: the placement pass over the lot list. -/
def RebuildHousesFromLots (atan2I : ℚ → ℚ → ℚ) (s : AppState) (assets : AssetCatalog)
    (animate : Bool) (nowSec : ℚ) : PlaceAcc :=
  s.lots.foldl (placeStep atan2I s assets animate nowSec) ⟨[], [], [], [], []⟩

/-! ### Derived views and shared helper definitions -/

/-- squared ground-plane distance between two points. -/
def dist2XZ (a b : Vec3) : ℚ := (b.x - a.x) * (b.x - a.x) + (b.z - a.z) * (b.z - a.z)

/-- the road list as ids plus ordered points — the components named by
the undo/redo restoration properties (`cumLen` is derived data). -/
def roadsViewL (l : List Road) : List (ℤ × List Vec3) := l.map fun r => (r.id, r.pts)

def roadsView (s : AppState) : List (ℤ × List Vec3) := roadsViewL s.roads

/-- segment-length prefix sums: `partialLen pts i` is the arc length of
the first `i` segments. -/
def partialLen : List Vec3 → ℕ → ℚ
  | _, 0 => 0
  | p :: q :: rest, n + 1 => LenXZ p q + partialLen (q :: rest) n
  | _, _ + 1 => 0

/-! ### Concrete instances used by the closed theorems -/

/-- an 8 m road along the x axis at `z = 0`. -/
def roadA : Road := ⟨1, [⟨0, 0, 0⟩, ⟨8, 0, 0⟩], [0, 8]⟩

/-- an 8 m road along the x axis at `z = 24`: its influence band (first
row at 12 m from the centerline) covers cells under `roadA`'s surface. -/
def roadB : Road := ⟨2, [⟨0, 0, 24⟩, ⟨8, 0, 24⟩], [0, 8]⟩

/-- the cell at world square `[0,8) × [8,16)`: under `roadA`'s surface
(its half-width reaches `z = 8`) and in `roadB`'s influence band. -/
def cellAB : CellKey := ⟨0, 0, 0, 1⟩

/-- a 16 m road with id 1. -/
def roadC1 : Road := ⟨1, [⟨0, 0, 0⟩, ⟨16, 0, 0⟩], [0, 16]⟩

/-- an empty world state. -/
def stEmpty : AppState := ⟨1, 1, [], [], [], emptyGrid, [], false, false, false⟩

/-- a world holding only `roadC1`. -/
def stRoad : AppState := ⟨2, 1, [roadC1], [], [], emptyGrid, [], false, false, false⟩

/-- a full-width residential strip on road 1, `[0,8]`, both sides. -/
def zC6 : ZoneStrip := ⟨1, 1, 0, 8, 3, .Residential, 48⟩

/-- a left-side-only strip on road 1, `[0,8]`. -/
def zLeft : ZoneStrip := ⟨1, 1, 0, 8, 1, .Residential, 48⟩

/-- a world whose only strip is `zLeft`. -/
def stC4 : AppState := ⟨1, 2, [], [zLeft], [], emptyGrid, [], false, false, false⟩

/-- a right-side strip on road 1, `[0,8]`. -/
def zRight : ZoneStrip := ⟨1, 1, 0, 8, 2, .Residential, 48⟩

/-- a strip on road 2. -/
def zOther : ZoneStrip := ⟨2, 2, 16, 24, 3, .Commercial, 48⟩

/-- zones of two different roads interleaved: road 1 first, road 2 second. -/
def stC2 : AppState := ⟨1, 3, [], [zC6, zOther], [], emptyGrid, [], false, false, false⟩

/-- world with `zRight` strip, for the boundary-touch witness. -/
def stC10 : AppState := ⟨1, 2, [], [zRight], [], emptyGrid, [], false, false, false⟩

/-- a lot window `[8,16]` on the right side of road 1 — touches
`zRight`'s interval `[0,8]` only at the boundary point 8. -/
def lotC10 : LotCell :=
  ⟨1, 1, 8, 16, ⟨12, 0, 12⟩, ⟨1, 0, 0⟩, ⟨0, 0, -1⟩, false, .Residential⟩

/-- a road that doubles back on itself exactly: `(0,0) → (100,0) → (0,0)`. -/
def roadBack : Road :=
  Road.rebuildCum ⟨3, [⟨0, 0, 0⟩, ⟨100, 0, 0⟩, ⟨0, 0, 0⟩], []⟩

/-- an L-shaped simple road for the C7 witness. -/
def roadL : Road := Road.rebuildCum ⟨4, [⟨0, 0, 0⟩, ⟨16, 0, 0⟩, ⟨16, 0, 16⟩], []⟩

/-- apply a command once and then undo it. -/
def applyUndo (c : Cmd) (s : AppState) : AppState :=
  let p := c.doIt s
  (p.2.undoIt p.1).1

/-! ## Theorems -/

/-! ### List helper lemmas -/

theorem findRoad_append_fresh (l : List Road) (road : Road)
    (h : ∀ r ∈ l, r.id ≠ road.id) :
    FindRoadIndexById (l ++ [road]) road.id = some l.length := by
  induction l with
  | nil => simp [FindRoadIndexById]
  | cons r rest ih =>
    have hr : ¬ r.id = road.id := h r (List.mem_cons_self r rest)
    simp [FindRoadIndexById, hr, ih fun x hx => h x (List.mem_cons_of_mem _ hx)]

theorem eraseIdx_append_len {α : Type} (l : List α) (a : α) :
    (l ++ [a]).eraseIdx l.length = l := by
  induction l with
  | nil => rfl
  | cons x rest ih => simp [List.eraseIdx, ih]

theorem erasePZone_append_fresh (l : List ZoneStrip) (z : ZoneStrip)
    (h : ∀ w ∈ l, w.id ≠ z.id) :
    (l ++ [z]).eraseP (fun w => w.id = z.id) = l := by
  induction l with
  | nil => simp [List.eraseP]
  | cons w rest ih =>
    have hw : ¬ w.id = z.id := h w (List.mem_cons_self w rest)
    simp [List.eraseP_cons, hw, ih fun x hx => h x (List.mem_cons_of_mem _ hx)]

theorem modifyIdx_modifyIdx (l : List Road) (i : ℕ) (f g : Road → Road) :
    modifyIdx (modifyIdx l i f) i g = modifyIdx l i fun r => g (f r) := by
  induction l generalizing i with
  | nil => cases i <;> rfl
  | cons r rest ih => cases i with
    | zero => rfl
    | succ n => simp [modifyIdx, ih]

theorem roadsViewL_modifyIdx (l : List Road) (i : ℕ) (f : Road → Road)
    (hid : (f (l.getD i defRoad)).id = (l.getD i defRoad).id)
    (hpts : (f (l.getD i defRoad)).pts = (l.getD i defRoad).pts) :
    roadsViewL (modifyIdx l i f) = roadsViewL l := by
  induction l generalizing i with
  | nil => cases i <;> rfl
  | cons r rest ih => cases i with
    | zero =>
      simp only [List.getD_cons_zero] at hid hpts
      simp [modifyIdx, roadsViewL, hid, hpts]
    | succ n =>
      simp only [List.getD_cons_succ] at hid hpts
      simpa [modifyIdx, roadsViewL] using ih n hid hpts

theorem findRoad_modifyIdx (l : List Road) (i : ℕ) (f : Road → Road)
    (hid : ∀ r, (f r).id = r.id) (rid : ℤ) :
    FindRoadIndexById (modifyIdx l i f) rid = FindRoadIndexById l rid := by
  induction l generalizing i with
  | nil => cases i <;> rfl
  | cons r rest ih => cases i with
    | zero => simp [modifyIdx, FindRoadIndexById, hid]
    | succ n => simp [modifyIdx, FindRoadIndexById, ih n]

theorem findRoad_some_lt (l : List Road) (rid : ℤ) (i : ℕ)
    (h : FindRoadIndexById l rid = some i) : i < l.length := by
  induction l generalizing i with
  | nil => simp [FindRoadIndexById] at h
  | cons r rest ih =>
    by_cases hr : r.id = rid
    · simp [FindRoadIndexById, hr] at h
      simp [← h]
    · simp only [FindRoadIndexById, if_neg hr, Option.map_eq_some'] at h
      obtain ⟨j, hj, rfl⟩ := h
      have := ih j hj
      simp
      omega

theorem getD_modifyIdx (l : List Road) (i : ℕ) (f : Road → Road)
    (hi : i < l.length) :
    (modifyIdx l i f).getD i defRoad = f (l.getD i defRoad) := by
  induction l generalizing i with
  | nil => simp at hi
  | cons r rest ih => cases i with
    | zero => rfl
    | succ n => simpa [modifyIdx] using ih n (by simpa using hi)

theorem getD_mem {α : Type} (l : List α) (i : ℕ) (d : α) (hi : i < l.length) :
    l.getD i d ∈ l := by
  induction l generalizing i with
  | nil => simp at hi
  | cons x rest ih => cases i with
    | zero => exact List.mem_cons_self x rest
    | succ n => exact List.mem_cons_of_mem _ (ih n (by simpa using hi))

theorem set_getD_self {α : Type} (l : List α) (n : ℕ) (d : α)
    (hn : n < l.length) : l.set n (l.getD n d) = l := by
  induction l generalizing n with
  | nil => simp at hn
  | cons x rest ih => cases n with
    | zero => rfl
    | succ m =>
      show x :: rest.set m (rest.getD m d) = x :: rest
      rw [ih m (by simpa using hn)]

theorem insertIdx_eraseIdx_getD {α : Type} (l : List α) (n : ℕ) (d : α)
    (hn : n < l.length) :
    (l.eraseIdx n).insertIdx n (l.getD n d) = l := by
  induction l generalizing n with
  | nil => simp at hn
  | cons x rest ih => cases n with
    | zero => rfl
    | succ m =>
      simp only [List.eraseIdx, List.getD_cons_succ, List.insertIdx_succ_cons]
      rw [ih m (by simpa using hn)]

/-! ### Undo-restoration lemmas, one per command -/

theorem undo_addRoad_restores (s : AppState) (road : Road)
    (h : ∀ r ∈ s.roads, r.id ≠ road.id) :
    roadsView (applyUndo (.addRoad road false) s) = roadsView s ∧
      (applyUndo (.addRoad road false) s).zones = s.zones := by
  unfold applyUndo
  simp [Cmd.doIt, Cmd.undoIt, findRoad_append_fresh s.roads road h,
    eraseIdx_append_len, roadsView]

theorem undo_addZone_restores (s : AppState) (z : ZoneStrip)
    (h : ∀ w ∈ s.zones, w.id ≠ z.id) :
    roadsView (applyUndo (.addZone z false) s) = roadsView s ∧
      (applyUndo (.addZone z false) s).zones = s.zones := by
  unfold applyUndo
  simp [Cmd.doIt, Cmd.undoIt, erasePZone_append_fresh s.zones z h, roadsView]

theorem undo_clearZones_restores (s : AppState) (rid : ℤ) :
    roadsView
        (applyUndo (.clearZonesForRoad rid (s.zones.filter fun z => z.roadId = rid) false) s) =
      roadsView s ∧
      (applyUndo (.clearZonesForRoad rid (s.zones.filter fun z => z.roadId = rid) false) s).zones.Perm
        s.zones := by
  unfold applyUndo
  simp only [Cmd.doIt, Bool.not_false, if_true, Cmd.undoIt]
  constructor
  · simp [roadsView]
  · have := List.filter_append_perm (fun z : ZoneStrip => decide (z.roadId ≠ rid)) s.zones
    simp only [decide_not, Bool.not_not] at this
    simpa using this
theorem undo_extendRoad_restores (s : AppState) (rid : ℤ) (added : List Vec3)
    (atStart : Bool) (h : ∀ r ∈ s.roads, r.pts ≠ []) :
    roadsView (applyUndo (.extendRoad rid added atStart) s) = roadsView s ∧
      (applyUndo (.extendRoad rid added atStart) s).zones = s.zones := by
  unfold applyUndo
  cases hf : FindRoadIndexById s.roads rid with
  | none => simp [Cmd.doIt, Cmd.undoIt, hf]
  | some i =>
    have hlt : i < s.roads.length := findRoad_some_lt _ _ _ hf
    have hne : (s.roads.getD i defRoad).pts ≠ [] := h _ (getD_mem _ _ _ hlt)
    have hlen : 0 < (s.roads.getD i defRoad).pts.length := List.length_pos.mpr hne
    cases hadd : added.isEmpty with
    | true =>
      have hnil : added = [] := List.isEmpty_iff.mp hadd
      subst hnil
      simp only [Cmd.doIt, hf, List.isEmpty_nil, if_true, Cmd.undoIt]
      rw [if_neg (by simpa using hne)]
      refine ⟨?_, rfl⟩
      simp only [roadsView]
      exact roadsViewL_modifyIdx _ _ _ rfl (by cases atStart <;> simp [Road.rebuildCum])
    | false =>
      simp only [Cmd.doIt, hf, hadd, Bool.false_eq_true, if_false, Cmd.undoIt]
      set f1 : Road → Road := fun r =>
        Road.rebuildCum { r with pts := if atStart then added ++ r.pts else r.pts ++ added }
        with hf1def
      have hfind2 : FindRoadIndexById (modifyIdx s.roads i f1) rid = some i := by
        rw [findRoad_modifyIdx s.roads i f1 (fun r => rfl) rid]
        exact hf
      rw [hfind2]
      dsimp only
      rw [getD_modifyIdx s.roads i f1 hlt]
      have hlen2 : ¬ ((f1 (s.roads.getD i defRoad)).pts.length ≤ added.length) := by
        rw [hf1def]
        have := List.isEmpty_eq_false.mp hadd
        cases atStart <;> simp [Road.rebuildCum] <;>
          first
            | exact hne
            | exact this
            | simpa using hne
      rw [if_neg hlen2]
      refine ⟨?_, rfl⟩
      simp only [roadsView, modifyIdx_modifyIdx]
      refine roadsViewL_modifyIdx _ _ _ rfl ?_
      rw [hf1def]
      cases atStart <;> simp [Road.rebuildCum]

theorem undo_moveRoadPoint_restores (s : AppState) (rid : ℤ) (pIdx : ℤ) (op np : Vec3)
    (h : ∀ i, FindRoadIndexById s.roads rid = some i →
      0 ≤ pIdx → pIdx < ((s.roads.getD i defRoad).pts.length : ℤ) →
      (s.roads.getD i defRoad).pts.getD pIdx.toNat defVec = op ∧ op.y = 0) :
    roadsView (applyUndo (.moveRoadPoint rid pIdx op np) s) = roadsView s ∧
      (applyUndo (.moveRoadPoint rid pIdx op np) s).zones = s.zones := by
  unfold applyUndo
  cases hf : FindRoadIndexById s.roads rid with
  | none => simp [Cmd.doIt, Cmd.undoIt, hf]
  | some i =>
    have hlt : i < s.roads.length := findRoad_some_lt _ _ _ hf
    by_cases hv : pIdx < 0 ∨ ((s.roads.getD i defRoad).pts.length : ℤ) ≤ pIdx
    · simp only [Cmd.doIt, hf, if_pos hv, Cmd.undoIt]
      exact ⟨trivial, trivial⟩
    · have hv2 : 0 ≤ pIdx ∧ pIdx < ((s.roads.getD i defRoad).pts.length : ℤ) := by
        push_neg at hv
        omega
      obtain ⟨hop, hopy⟩ := h i hf hv2.1 hv2.2
      have hn : pIdx.toNat < (s.roads.getD i defRoad).pts.length := by omega
      simp only [Cmd.doIt, hf, if_neg hv, Cmd.undoIt]
      set f1 : Road → Road := fun r =>
        Road.rebuildCum { r with pts := r.pts.set pIdx.toNat ⟨np.x, 0, np.z⟩ } with hf1def
      have hfind2 : FindRoadIndexById (modifyIdx s.roads i f1) rid = some i := by
        rw [findRoad_modifyIdx s.roads i f1 (fun r => rfl) rid]
        exact hf
      rw [hfind2]
      dsimp only
      rw [getD_modifyIdx s.roads i f1 hlt]
      have hlen2 : ¬ (pIdx < 0 ∨
          (((f1 (s.roads.getD i defRoad)).pts.length : ℤ) ≤ pIdx)) := by
        rw [hf1def]
        simp only [Road.rebuildCum, List.length_set]
        omega
      rw [if_neg hlen2]
      refine ⟨?_, rfl⟩
      simp only [roadsView, modifyIdx_modifyIdx]
      refine roadsViewL_modifyIdx _ _ _ rfl ?_
      rw [hf1def]
      simp only [Road.rebuildCum, List.set_set]
      have hopv : (⟨op.x, 0, op.z⟩ : Vec3) = op := by
        obtain ⟨ox, oy, oz⟩ := op
        simp only at hopy
        rw [hopy]
      rw [hopv, ← hop]
      exact set_getD_self _ _ _ hn

theorem undo_deleteRoadPoint_restores (s : AppState) (rid : ℤ) (pIdx : ℤ) (rm : Vec3) :
    roadsView (applyUndo (.deleteRoadPoint rid pIdx rm false) s) = roadsView s ∧
      (applyUndo (.deleteRoadPoint rid pIdx rm false) s).zones = s.zones := by
  unfold applyUndo
  cases hf : FindRoadIndexById s.roads rid with
  | none => simp [Cmd.doIt, Cmd.undoIt, hf]
  | some i =>
    have hlt : i < s.roads.length := findRoad_some_lt _ _ _ hf
    by_cases hv : pIdx < 0 ∨ ((s.roads.getD i defRoad).pts.length : ℤ) ≤ pIdx
    · simp only [Cmd.doIt, hf, if_pos hv, Cmd.undoIt]
      simp
    · by_cases hsmall : (s.roads.getD i defRoad).pts.length ≤ 2
      · simp only [Cmd.doIt, hf, if_neg hv, if_pos hsmall, Cmd.undoIt]
        simp
      · have hv2 : 0 ≤ pIdx ∧ pIdx < ((s.roads.getD i defRoad).pts.length : ℤ) := by
          push_neg at hv
          omega
        have hn : pIdx.toNat < (s.roads.getD i defRoad).pts.length := by omega
        simp only [Cmd.doIt, hf, if_neg hv, if_neg hsmall, Cmd.undoIt, Bool.not_true,
          Bool.false_eq_true, if_false]
        set f1 : Road → Road := fun r =>
          Road.rebuildCum { r with pts := r.pts.eraseIdx pIdx.toNat } with hf1def
        have hfind2 : FindRoadIndexById (modifyIdx s.roads i f1) rid = some i := by
          rw [findRoad_modifyIdx s.roads i f1 (fun r => rfl) rid]
          exact hf
        rw [hfind2]
        dsimp only
        rw [getD_modifyIdx s.roads i f1 hlt]
        have hpi2 : min (max pIdx 0) ((f1 (s.roads.getD i defRoad)).pts.length : ℤ) = pIdx := by
          rw [hf1def]
          simp only [Road.rebuildCum, List.length_eraseIdx, hn, if_pos]
          omega
        rw [hpi2]
        refine ⟨?_, rfl⟩
        simp only [roadsView, modifyIdx_modifyIdx]
        refine roadsViewL_modifyIdx _ _ _ rfl ?_
        rw [hf1def]
        simp only [Road.rebuildCum]
        exact insertIdx_eraseIdx_getD _ _ _ hn

/-! ### Zone-grid flag lemmas -/

theorem worldToZoneCell_range (p : Vec3) (c : CellKey) (h : worldToZoneCell p = some c) :
    0 ≤ c.xi ∧ c.xi < ZONE_DIM ∧ 0 ≤ c.zi ∧ c.zi < ZONE_DIM := by
  simp only [worldToZoneCell] at h
  split at h
  · next hcond =>
    injection h with h
    subst h
    exact hcond
  · cases h

theorem mem_surfaceCellList_range (r : Road) (c : CellKey) (h : c ∈ surfaceCellList r) :
    0 ≤ c.xi ∧ c.xi < ZONE_DIM ∧ 0 ≤ c.zi ∧ c.zi < ZONE_DIM := by
  simp only [surfaceCellList] at h
  split at h
  · cases h
  · rw [List.mem_flatMap] at h
    obtain ⟨d, _, hd⟩ := h
    split at hd
    · cases hd
    · rw [List.mem_filterMap] at hd
      obtain ⟨off, _, hoff⟩ := hd
      exact worldToZoneCell_range _ _ hoff

theorem setCell_bit2_mono (g : ZGrid) (c : CellKey) (setM clrM : ℕ) (k : CellKey)
    (hclr : (255 - clrM).testBit 2 = true) (hk : (g k).testBit 2 = true) :
    (setZoneCellFlags g c setM clrM k).testBit 2 = true := by
  unfold setZoneCellFlags
  split
  · next hcond =>
    obtain ⟨rfl, -⟩ := hcond
    rw [Nat.testBit_or, Nat.testBit_and, hk, hclr]
    simp
  · exact hk

theorem setCell_bit2_set (g : ZGrid) (c : CellKey) (setM clrM : ℕ)
    (hset : setM.testBit 2 = true)
    (hrange : 0 ≤ c.xi ∧ c.xi < ZONE_DIM ∧ 0 ≤ c.zi ∧ c.zi < ZONE_DIM) :
    (setZoneCellFlags g c setM clrM c).testBit 2 = true := by
  unfold setZoneCellFlags
  rw [if_pos ⟨rfl, hrange.1, hrange.2.1, hrange.2.2.1, hrange.2.2.2⟩]
  rw [Nat.testBit_or, hset]
  simp

theorem stampFold_bit2_mono (l : List CellKey) (g : ZGrid) (setM clrM : ℕ) (k : CellKey)
    (hclr : (255 - clrM).testBit 2 = true) (hk : (g k).testBit 2 = true) :
    ((l.foldl (fun g c => setZoneCellFlags g c setM clrM) g) k).testBit 2 = true := by
  induction l generalizing g with
  | nil => exact hk
  | cons x xs ih => exact ih _ (setCell_bit2_mono g x setM clrM k hclr hk)

theorem stampFold_bit2_set (l : List CellKey) (g : ZGrid) (setM clrM : ℕ) (c : CellKey)
    (hset : setM.testBit 2 = true) (hclr : (255 - clrM).testBit 2 = true)
    (hrange : 0 ≤ c.xi ∧ c.xi < ZONE_DIM ∧ 0 ≤ c.zi ∧ c.zi < ZONE_DIM)
    (hc : c ∈ l) :
    ((l.foldl (fun g c => setZoneCellFlags g c setM clrM) g) c).testBit 2 = true := by
  induction l generalizing g with
  | nil => cases hc
  | cons x xs ih =>
    rcases List.mem_cons.mp hc with rfl | hmem
    · exact stampFold_bit2_mono xs _ setM clrM c hclr (setCell_bit2_set g c setM clrM hset hrange)
    · exact ih _ hmem

theorem influence_bit2_mono (g : ZGrid) (r : Road) (k : CellKey)
    (hk : (g k).testBit 2 = true) : (stampRoadInfluence g r k).testBit 2 = true :=
  stampFold_bit2_mono _ _ _ _ _ (by decide) hk

theorem surface_bit2_mono (g : ZGrid) (r : Road) (k : CellKey)
    (hk : (g k).testBit 2 = true) : (stampRoadSurfaceBlocked g r k).testBit 2 = true :=
  stampFold_bit2_mono _ _ _ _ _ (by decide) hk

theorem water_bit2_mono (g : ZGrid) (w : List CellKey) (k : CellKey)
    (hk : (g k).testBit 2 = true) : (stampWaterMask g w k).testBit 2 = true :=
  stampFold_bit2_mono _ _ _ _ _ (by decide) hk

theorem roadFold_bit2_mono (l : List Road) (g : ZGrid) (k : CellKey)
    (hk : (g k).testBit 2 = true) :
    ((l.foldl (fun g r => stampRoadSurfaceBlocked (stampRoadInfluence g r) r) g) k).testBit 2 =
      true := by
  induction l generalizing g with
  | nil => exact hk
  | cons x xs ih => exact ih _ (surface_bit2_mono _ _ _ (influence_bit2_mono _ _ _ hk))

/-- a grid in which no cell carries the zoned bit. -/
def NoZoned (g : ZGrid) : Prop := ∀ k, (g k).testBit 1 = false

theorem setCell_noZoned (g : ZGrid) (c : CellKey) (setM clrM : ℕ)
    (hset : setM.testBit 1 = false) (hg : NoZoned g) :
    NoZoned (setZoneCellFlags g c setM clrM) := by
  intro k
  unfold setZoneCellFlags
  split
  · rw [Nat.testBit_or, Nat.testBit_and, hg c, hset]
    simp
  · exact hg k

theorem stampFold_noZoned (l : List CellKey) (g : ZGrid) (setM clrM : ℕ)
    (hset : setM.testBit 1 = false) (hg : NoZoned g) :
    NoZoned (l.foldl (fun g c => setZoneCellFlags g c setM clrM) g) := by
  induction l generalizing g with
  | nil => exact hg
  | cons x xs ih => exact ih _ (setCell_noZoned g x setM clrM hset hg)

theorem roadFold_noZoned (l : List Road) (g : ZGrid) (hg : NoZoned g) :
    NoZoned (l.foldl (fun g r => stampRoadSurfaceBlocked (stampRoadInfluence g r) r) g) := by
  induction l generalizing g with
  | nil => exact hg
  | cons x xs ih =>
    exact ih _ (stampFold_noZoned _ _ _ _ (by decide) (stampFold_noZoned _ _ _ _ (by decide) hg))

/-- a grid in which no cell carries the blocked bit. -/
def NoBlocked (g : ZGrid) : Prop := ∀ k, (g k).testBit 2 = false

/-- no cell is simultaneously blocked and buildable. -/
def BlockedExcl (g : ZGrid) : Prop :=
  ∀ k, ¬((g k).testBit 2 = true ∧ (g k).testBit 0 = true)

theorem setCell_noBlocked (g : ZGrid) (c : CellKey) (setM clrM : ℕ)
    (hset : setM.testBit 2 = false) (hg : NoBlocked g) :
    NoBlocked (setZoneCellFlags g c setM clrM) := by
  intro k
  unfold setZoneCellFlags
  split
  · rw [Nat.testBit_or, Nat.testBit_and, hg c, hset]
    simp
  · exact hg k

theorem stampFold_noBlocked (l : List CellKey) (g : ZGrid) (setM clrM : ℕ)
    (hset : setM.testBit 2 = false) (hg : NoBlocked g) :
    NoBlocked (l.foldl (fun g c => setZoneCellFlags g c setM clrM) g) := by
  induction l generalizing g with
  | nil => exact hg
  | cons x xs ih => exact ih _ (setCell_noBlocked g x setM clrM hset hg)

theorem noBlocked_blockedExcl (g : ZGrid) (hg : NoBlocked g) : BlockedExcl g := by
  intro k hk
  rw [hg k] at hk
  cases hk.1

theorem setCell_blockedExcl (g : ZGrid) (c : CellKey) (hg : BlockedExcl g) :
    BlockedExcl (setZoneCellFlags g c ZONE_FLAG_BLOCKED
      (ZONE_FLAG_BUILDABLE ||| ZONE_FLAG_ZONED ||| ZONE_TYPE_MASK)) := by
  intro k
  unfold setZoneCellFlags
  split
  · intro hk
    have h0 := hk.2
    rw [Nat.testBit_or, Nat.testBit_and] at h0
    revert h0
    rw [show ((255 - (ZONE_FLAG_BUILDABLE ||| ZONE_FLAG_ZONED ||| ZONE_TYPE_MASK)).testBit 0)
        = false by decide,
      show (ZONE_FLAG_BLOCKED.testBit 0) = false by decide]
    simp
  · exact hg k

theorem stampFold_blockedExcl (l : List CellKey) (g : ZGrid) (hg : BlockedExcl g) :
    BlockedExcl (l.foldl
      (fun g c => setZoneCellFlags g c ZONE_FLAG_BLOCKED
        (ZONE_FLAG_BUILDABLE ||| ZONE_FLAG_ZONED ||| ZONE_TYPE_MASK)) g) := by
  induction l generalizing g with
  | nil => exact hg
  | cons x xs ih => exact ih _ (setCell_blockedExcl g x hg)

/-! ### Arc-length lemmas (`rebuildCum`, `findSeg`, `pointAt`) -/

theorem lenXZ_nonneg (a b : Vec3) : 0 ≤ LenXZ a b := by
  unfold LenXZ ratSqrt
  exact Rat.mkRat_nonneg (Int.natCast_nonneg _) _

theorem cumAux_length (p : Vec3) (rest : List Vec3) (acc : ℚ) :
    (cumAux p rest acc).length = rest.length := by
  induction rest generalizing p acc with
  | nil => rfl
  | cons q qs ih => simp [cumAux, ih]

theorem cumOfPts_length (pts : List Vec3) : (cumOfPts pts).length = pts.length := by
  cases pts with
  | nil => rfl
  | cons p rest => simp [cumOfPts, cumAux_length]

theorem cumAux_getD (rest : List Vec3) (p : Vec3) (acc : ℚ) (i : ℕ)
    (hi : i < rest.length) :
    (cumAux p rest acc).getD i 0 = acc + partialLen (p :: rest) (i + 1) := by
  induction rest generalizing p acc i with
  | nil => simp at hi
  | cons q qs ih =>
    cases i with
    | zero => simp [cumAux, partialLen]
    | succ n =>
      have hrec := ih q (acc + LenXZ p q) n (by simpa using hi)
      simp only [cumAux, List.getD_cons_succ]
      rw [hrec]
      show acc + LenXZ p q + partialLen (q :: qs) (n + 1) =
        acc + partialLen (p :: q :: qs) (n + 1 + 1)
      simp only [partialLen]
      ring

theorem cum_getD (pts : List Vec3) (i : ℕ) (hi : i < pts.length) :
    (cumOfPts pts).getD i 0 = partialLen pts i := by
  cases pts with
  | nil => simp at hi
  | cons p rest =>
    cases i with
    | zero => simp [cumOfPts, partialLen]
    | succ n =>
      simp only [cumOfPts, List.getD_cons_succ]
      rw [cumAux_getD rest p 0 n (by simpa using hi)]
      ring

theorem partialLen_succ (pts : List Vec3) (i : ℕ) (hi : i + 1 < pts.length) :
    partialLen pts (i + 1) =
      partialLen pts i + LenXZ (pts.getD i defVec) (pts.getD (i + 1) defVec) := by
  induction pts generalizing i with
  | nil => simp at hi
  | cons p rest ih =>
    cases rest with
    | nil => simp at hi
    | cons q qs =>
      cases i with
      | zero => simp [partialLen]
      | succ n =>
        have hrec := ih n (by simpa using hi)
        show LenXZ p q + partialLen (q :: qs) (n + 1) = _
        rw [hrec]
        simp only [partialLen, List.getD_cons_succ]
        ring

theorem partialLen_nonneg (pts : List Vec3) (i : ℕ) : 0 ≤ partialLen pts i := by
  induction pts generalizing i with
  | nil => cases i <;> simp [partialLen]
  | cons p rest ih =>
    cases i with
    | zero => simp [partialLen]
    | succ n =>
      cases rest with
      | nil => simp [partialLen]
      | cons q qs => exact add_nonneg (lenXZ_nonneg p q) (ih n)

theorem getLast?_getD {α : Type} (l : List α) (d : α) (h : l ≠ []) :
    (l.getLast?).getD d = l.getD (l.length - 1) d := by
  induction l with
  | nil => cases h rfl
  | cons x rest ih =>
    cases rest with
    | nil => rfl
    | cons y ys =>
      rw [List.getLast?_cons_cons, ih (List.cons_ne_nil y ys)]
      simp

theorem totalLen_eq (r : Road) (h2 : 2 ≤ r.pts.length) (hcum : r.cumLen = cumOfPts r.pts) :
    r.totalLen = partialLen r.pts (r.pts.length - 1) := by
  unfold Road.totalLen
  rw [hcum]
  have hne : cumOfPts r.pts ≠ [] := by
    intro h0
    have hl := cumOfPts_length r.pts
    rw [h0] at hl
    simp at hl
    omega
  rw [getLast?_getD _ _ hne, cumOfPts_length, cum_getD _ _ (by omega)]

theorem getD_chain_lt (l : List ℚ)
    (hmono : ∀ i, i + 1 < l.length → l.getD i 0 < l.getD (i + 1) 0) :
    ∀ i j, i < j → j < l.length → l.getD i 0 < l.getD j 0 := by
  intro i j hij hj
  induction j with
  | zero => omega
  | succ k ih =>
    rcases Nat.lt_succ_iff_lt_or_eq.mp hij with h | h
    · exact (ih h (by omega)).trans (hmono k hj)
    · subst h
      exact hmono i hj

theorem findSeg_spec (cum : List ℚ) (d : ℚ) (h2 : 2 ≤ cum.length)
    (hd : d ≤ cum.getD (cum.length - 1) 0) :
    findSeg cum d + 2 ≤ cum.length ∧
      (0 < findSeg cum d → cum.getD (findSeg cum d) 0 < d) ∧
      ¬ cum.getD (findSeg cum d + 1) 0 < d := by
  induction cum with
  | nil => simp at h2
  | cons c0 rest ih =>
    cases rest with
    | nil => simp at h2
    | cons c1 rest2 =>
      by_cases hc1 : c1 < d
      · cases rest2 with
        | nil =>
          exfalso
          simp only [List.length_cons, List.length_nil] at hd
          norm_num at hd
          exact absurd hc1 (not_lt.mpr hd)
        | cons c2 rest3 =>
          have hd2 : d ≤ (c1 :: c2 :: rest3).getD ((c1 :: c2 :: rest3).length - 1) 0 := by
            simpa using hd
          have hrec := ih (by simp) hd2
          have hstep : findSeg (c0 :: c1 :: c2 :: rest3) d =
              findSeg (c1 :: c2 :: rest3) d + 1 := by
            conv_lhs => rw [findSeg]
            rw [if_pos hc1]
          rw [hstep]
          refine ⟨by simpa using hrec.1, ?_, by simpa using hrec.2.2⟩
          intro _
          cases hfs : findSeg (c1 :: c2 :: rest3) d with
          | zero => simpa using hc1
          | succ m =>
            have hlt := hrec.2.1 (by omega)
            rw [hfs] at hlt
            simpa using hlt
      · simp only [findSeg, if_neg hc1]
        refine ⟨by simp, by omega, by simpa using hc1⟩

theorem zonesOverlap_iff (a0 a1 b0 b1 : ℚ) :
    ZonesOverlap a0 a1 b0 b1 = true ↔
      min b0 b1 ≤ max a0 a1 ∧ min a0 a1 ≤ max b0 b1 := by
  unfold ZonesOverlap
  simp only [decide_eq_true_eq]
  rw [max_le_iff, le_min_iff, le_min_iff]
  constructor
  · rintro ⟨⟨_, h1⟩, ⟨h2, _⟩⟩
    exact ⟨h2, h1⟩
  · rintro ⟨h2, h1⟩
    exact ⟨⟨min_le_max, h1⟩, ⟨h2, min_le_max⟩⟩

/-- intervals sharing a single boundary point overlap under `ZonesOverlap`. -/
theorem zonesOverlap_of_touch (a0 a1 b0 b1 : ℚ)
    (h : max a0 a1 = min b0 b1 ∨ max b0 b1 = min a0 a1) :
    ZonesOverlap a0 a1 b0 b1 = true := by
  rw [zonesOverlap_iff]
  rcases h with h | h
  · exact ⟨h ▸ le_rfl, le_trans (le_trans min_le_max h.le) min_le_max⟩
  · exact ⟨le_trans (le_trans min_le_max h.symm.ge) min_le_max, h ▸ le_rfl⟩

/-- C4 counterexample: with a single existing strip on road 1 occupying
only the left side (`sideMask = 1`), a request for the same interval on
road 1 is reported as overlapping by `ZoneOverlapsExisting` — and hence
rejected by the commit path — even though no existing strip shares a
side with the incoming right-side (`sideMask = 2`) request.  This
refutes the claim that rejection happens only when a side is shared. -/
theorem C4_counterexample :
    ZoneOverlapsExisting stC4 1 0 8 = true ∧
      ∀ z ∈ stC4.zones, z.sideMask &&& 2 = 0 := by
  constructor
  · decide
  · decide

/-- C4 (amended): a new strip on `roadId` with interval `[d0,d1]` is
reported as overlapping (and thus rejected at creation) iff some
existing strip on the same road — regardless of side mask — overlaps
the closed interval. -/
theorem C4_reject_iff_same_road_overlap (s : AppState) (roadId : ℤ) (d0 d1 : ℚ) :
    ZoneOverlapsExisting s roadId d0 d1 = true ↔
      ∃ z ∈ s.zones, z.roadId = roadId ∧
        min z.d0 z.d1 ≤ max d0 d1 ∧ min d0 d1 ≤ max z.d0 z.d1 := by
  unfold ZoneOverlapsExisting
  rw [List.any_eq_true]
  constructor
  · rintro ⟨z, hz, hp⟩
    rw [Bool.and_eq_true, decide_eq_true_eq, zonesOverlap_iff] at hp
    exact ⟨z, hz, hp.1, hp.2⟩
  · rintro ⟨z, hz, h1, h2⟩
    refine ⟨z, hz, ?_⟩
    rw [Bool.and_eq_true, decide_eq_true_eq, zonesOverlap_iff]
    exact ⟨h1, h2⟩

/-- C10: the zone-interval overlap test is closed: intervals sharing a
single boundary point overlap; consequently an `AddZone` request whose
interval is exactly adjacent to an existing strip on the same road is
rejected by the creation check, and a lot window that only touches a
matching strip's boundary is marked zoned by `IsLotZoned`. -/
theorem C10_closed_overlap :
    (∀ a0 a1 b0 b1 : ℚ, a0 ≤ a1 → b0 ≤ b1 → a1 = b0 →
      ZonesOverlap a0 a1 b0 b1 = true)
    ∧ (∀ (s : AppState) (roadId : ℤ) (d0 d1 : ℚ),
        (∃ z ∈ s.zones, z.roadId = roadId ∧
          (max d0 d1 = min z.d0 z.d1 ∨ max z.d0 z.d1 = min d0 d1)) →
        ZoneOverlapsExisting s roadId d0 d1 = true)
    ∧ (∀ (s : AppState) (lot : LotCell),
        (∃ z ∈ s.zones, z.roadId = lot.roadId ∧
          z.sideMask &&& (if lot.side < 0 then 1 else 2) ≠ 0 ∧
          (max lot.d0 lot.d1 = min z.d0 z.d1 ∨ max z.d0 z.d1 = min lot.d0 lot.d1)) →
        (IsLotZoned s lot).isSome = true) := by
  refine ⟨?_, ?_, ?_⟩
  · intro a0 a1 b0 b1 ha hb hab
    exact zonesOverlap_of_touch a0 a1 b0 b1 (Or.inl (by rw [max_eq_right ha, min_eq_left hb, hab]))
  · rintro s roadId d0 d1 ⟨z, hz, hrid, htouch⟩
    unfold ZoneOverlapsExisting
    rw [List.any_eq_true]
    exact ⟨z, hz, by
      rw [Bool.and_eq_true, decide_eq_true_eq]
      exact ⟨hrid, zonesOverlap_of_touch _ _ _ _ htouch⟩⟩
  · rintro s lot ⟨z, hz, hrid, hside, htouch⟩
    simp only [IsLotZoned]
    simp
    exact ⟨z, hz, ⟨hrid, hside⟩, zonesOverlap_of_touch _ _ _ _ htouch⟩

/-- C10 witness: concrete instances of all three parts — `[0,8]` and
`[8,16]` overlap; an `[8,16]` request is rejected against `stC10`'s
`[0,8]` strip; the lot `[8,16]` touching that strip at 8 is zoned. -/
theorem C10_witness :
    ZonesOverlap 0 8 8 16 = true ∧
      ZoneOverlapsExisting stC10 1 8 16 = true ∧
      (IsLotZoned stC10 lotC10).isSome = true :=
  ⟨C10_closed_overlap.1 0 8 8 16 (by norm_num) (by norm_num) (by norm_num),
    C10_closed_overlap.2.1 stC10 1 8 16 ⟨zRight, by decide, by decide, by decide⟩,
    C10_closed_overlap.2.2 stC10 lotC10 ⟨zRight, by decide, by decide, by decide, by decide⟩⟩

/-- C2 (amended): undo after a single fresh command restores the road
list (ids and ordered points) and the zone list bit-for-bit for
`AddRoad` (fresh road id), `ExtendRoad` (roads nonempty),
`MoveRoadPoint` (recorded `oldPos` equal to the pre-command point, with
`y = 0` as the ground plane pins it), `DeleteRoadPoint` and `AddZone`
(fresh zone id); for `ClearZonesForRoad` — whose `undoIt` re-appends the
removed strips at the end — undo restores the zone list up to
permutation only. -/
theorem C2_amended_restore :
    (∀ (s : AppState) (road : Road), (∀ r ∈ s.roads, r.id ≠ road.id) →
      roadsView (applyUndo (.addRoad road false) s) = roadsView s ∧
        (applyUndo (.addRoad road false) s).zones = s.zones)
    ∧ (∀ (s : AppState) (rid : ℤ) (added : List Vec3) (atStart : Bool),
        (∀ r ∈ s.roads, r.pts ≠ []) →
        roadsView (applyUndo (.extendRoad rid added atStart) s) = roadsView s ∧
          (applyUndo (.extendRoad rid added atStart) s).zones = s.zones)
    ∧ (∀ (s : AppState) (rid : ℤ) (pIdx : ℤ) (op np : Vec3),
        (∀ i, FindRoadIndexById s.roads rid = some i →
          0 ≤ pIdx → pIdx < ((s.roads.getD i defRoad).pts.length : ℤ) →
          (s.roads.getD i defRoad).pts.getD pIdx.toNat defVec = op ∧ op.y = 0) →
        roadsView (applyUndo (.moveRoadPoint rid pIdx op np) s) = roadsView s ∧
          (applyUndo (.moveRoadPoint rid pIdx op np) s).zones = s.zones)
    ∧ (∀ (s : AppState) (rid : ℤ) (pIdx : ℤ) (rm : Vec3),
        roadsView (applyUndo (.deleteRoadPoint rid pIdx rm false) s) = roadsView s ∧
          (applyUndo (.deleteRoadPoint rid pIdx rm false) s).zones = s.zones)
    ∧ (∀ (s : AppState) (z : ZoneStrip), (∀ w ∈ s.zones, w.id ≠ z.id) →
        roadsView (applyUndo (.addZone z false) s) = roadsView s ∧
          (applyUndo (.addZone z false) s).zones = s.zones)
    ∧ (∀ (s : AppState) (rid : ℤ),
        roadsView
            (applyUndo (.clearZonesForRoad rid (s.zones.filter fun z => z.roadId = rid) false) s) =
          roadsView s ∧
          (applyUndo (.clearZonesForRoad rid (s.zones.filter fun z => z.roadId = rid) false)
              s).zones.Perm s.zones) :=
  ⟨undo_addRoad_restores, undo_extendRoad_restores, undo_moveRoadPoint_restores,
    undo_deleteRoadPoint_restores, undo_addZone_restores, undo_clearZones_restores⟩

/-- C2 witness: concrete apply-undo round trips — a fresh `AddRoad` on
the empty world, a `MoveRoadPoint` on `stRoad` with accurate `oldPos`,
and a `ClearZonesForRoad` on the two-road zone list. -/
theorem C2_amended_restore_witness :
    (roadsView (applyUndo (.addRoad roadC1 false) stEmpty) = roadsView stEmpty ∧
      (applyUndo (.addRoad roadC1 false) stEmpty).zones = stEmpty.zones) ∧
    (roadsView (applyUndo (.moveRoadPoint 1 0 ⟨0, 0, 0⟩ ⟨5, 0, 5⟩) stRoad) = roadsView stRoad ∧
      (applyUndo (.moveRoadPoint 1 0 ⟨0, 0, 0⟩ ⟨5, 0, 5⟩) stRoad).zones = stRoad.zones) ∧
    (roadsView
        (applyUndo (.clearZonesForRoad 1 (stC2.zones.filter fun z => z.roadId = 1) false) stC2) =
      roadsView stC2 ∧
      (applyUndo (.clearZonesForRoad 1 (stC2.zones.filter fun z => z.roadId = 1) false)
          stC2).zones.Perm stC2.zones) :=
  ⟨C2_amended_restore.1 stEmpty roadC1 (by decide),
    C2_amended_restore.2.2.1 stRoad 1 0 ⟨0, 0, 0⟩ ⟨5, 0, 5⟩ (by
      intro i hi
      have h0 : FindRoadIndexById stRoad.roads 1 = some 0 := by decide
      rw [h0] at hi
      injection hi with hi0
      subst hi0
      exact fun _ _ => ⟨by decide, by decide⟩),
    C2_amended_restore.2.2.2.2.2 stC2 1⟩

/-- C3 (amended): after every `RebuildZoneGrid`, (a) every cell sampled
under any road's physical surface width is flagged blocked, and (b) no
cell is flagged zoned (so blocked-and-zoned never occurs; the rebuild
never sets `ZONE_FLAG_ZONED`); the claimed blocked/buildable exclusion
however holds only for single-road worlds (c): with several roads a
later road's influence pass re-marks buildable on cells blocked by an
earlier road's surface pass. -/
theorem C3_surface_blocked_and_exclusion :
    (∀ (roads : List Road) (water : List CellKey) (r : Road) (c : CellKey),
      r ∈ roads → c ∈ surfaceCellList r →
      (rebuildZoneGrid roads water c).testBit 2 = true)
    ∧ (∀ (roads : List Road) (water : List CellKey) (c : CellKey),
      (rebuildZoneGrid roads water c).testBit 1 = false)
    ∧ (∀ (r : Road) (water : List CellKey), BlockedExcl (rebuildZoneGrid [r] water)) := by
  refine ⟨?_, ?_, ?_⟩
  · intro roads water r c hr hc
    obtain ⟨l1, l2, rfl⟩ := List.append_of_mem hr
    unfold rebuildZoneGrid
    rw [if_neg (by simp)]
    apply water_bit2_mono
    rw [List.foldl_append, List.foldl_cons]
    apply roadFold_bit2_mono
    unfold stampRoadSurfaceBlocked
    exact stampFold_bit2_set _ _ _ _ _ (by decide) (by decide)
      (mem_surfaceCellList_range r c hc) hc
  · intro roads water c
    unfold rebuildZoneGrid
    split
    · exact Nat.zero_testBit 1
    · exact stampFold_noZoned water _ _ _ (by decide)
        (roadFold_noZoned roads emptyGrid fun k => Nat.zero_testBit 1) c
  · intro r water
    unfold rebuildZoneGrid
    rw [if_neg (by simp)]
    simp only [List.foldl_cons, List.foldl_nil]
    have h1 : NoBlocked (stampRoadInfluence emptyGrid r) :=
      stampFold_noBlocked _ _ _ _ (by decide) fun k => Nat.zero_testBit 2
    exact stampFold_blockedExcl water _
      (stampFold_blockedExcl _ _ (noBlocked_blockedExcl _ h1))

/-- C3 counterexample: rebuilding with `roadA` then `roadB` (no water),
the cell `cellAB` lies under `roadA`'s surface — so it is blocked — yet
`roadB`'s later influence pass re-marks it buildable: the grid holds a
cell that is simultaneously blocked and buildable, refuting the claimed
exclusion for arbitrary road sets. -/
theorem C3_counterexample :
    (rebuildZoneGrid [roadA, roadB] [] cellAB).testBit 2 = true ∧
      (rebuildZoneGrid [roadA, roadB] [] cellAB).testBit 0 = true ∧
      cellAB ∈ surfaceCellList roadA := by
  refine ⟨by decide, by decide, by decide⟩

/-- C3 witness: the single-road world over `roadA`: `cellAB` is under
the surface, hence blocked, not zoned, and not blocked-and-buildable. -/
theorem C3_surface_blocked_witness :
    (rebuildZoneGrid [roadA] [] cellAB).testBit 2 = true ∧
      (rebuildZoneGrid [roadA] [] cellAB).testBit 1 = false ∧
      ¬((rebuildZoneGrid [roadA] [] cellAB).testBit 2 = true ∧
        (rebuildZoneGrid [roadA] [] cellAB).testBit 0 = true) :=
  ⟨C3_surface_blocked_and_exclusion.1 [roadA] [] roadA cellAB (by decide) (by decide),
    C3_surface_blocked_and_exclusion.2.1 [roadA] [] cellAB,
    C3_surface_blocked_and_exclusion.2.2 roadA [] cellAB⟩

theorem vec3_eta_y0 (v : Vec3) (hv : v.y = 0) : (⟨v.x, 0, v.z⟩ : Vec3) = v := by
  obtain ⟨vx, vy, vz⟩ := v
  simp only at hv
  rw [hv]

theorem vec3_lerp_one (u v : Vec3) (hv : v.y = 0) :
    (⟨u.x + (v.x - u.x), 0, u.z + (v.z - u.z)⟩ : Vec3) = v := by
  obtain ⟨vx, vy, vz⟩ := v
  simp only at hv
  simp only [Vec3.mk.injEq]
  exact ⟨by ring, hv.symm, by ring⟩

/-- C8: for a road with at least two points, a consistent cumulative
array and nondegenerate segments (each at least the `1e-6` epsilon, with
ground-plane points), `pointAt 0` returns the first point and
`pointAt(totalLen)` returns the last point — exactly, hence within any
floating tolerance. -/
theorem C8_pointAt_endpoints (r : Road)
    (h2 : 2 ≤ r.pts.length)
    (hcum : r.cumLen = cumOfPts r.pts)
    (hy : ∀ p ∈ r.pts, p.y = 0)
    (hseg : ∀ i < r.pts.length - 1,
      EPS6 ≤ LenXZ (r.pts.getD i defVec) (r.pts.getD (i + 1) defVec)) :
    (r.pointAt 0).1 = r.pts.getD 0 defVec ∧
      (r.pointAt r.totalLen).1 = r.pts.getD (r.pts.length - 1) defVec := by
  have hlen : r.cumLen.length = r.pts.length := by rw [hcum, cumOfPts_length]
  have hguard : ¬ (r.pts.length < 2 ∨ r.cumLen.length ≠ r.pts.length) := by
    push_neg
    exact ⟨by omega, hlen⟩
  have heps : (0 : ℚ) < EPS6 := by norm_num [EPS6]
  have htot : r.totalLen = partialLen r.pts (r.pts.length - 1) := totalLen_eq r h2 hcum
  have htotnn : 0 ≤ r.totalLen := htot ▸ partialLen_nonneg _ _
  have hmono : ∀ i, i + 1 < r.cumLen.length →
      r.cumLen.getD i 0 < r.cumLen.getD (i + 1) 0 := by
    intro i hi
    rw [hlen] at hi
    rw [hcum, cum_getD _ _ (by omega), cum_getD _ _ (by omega),
      partialLen_succ _ _ (by omega)]
    have := hseg i (by omega)
    linarith
  have hlast : r.cumLen.getD (r.cumLen.length - 1) 0 = r.totalLen := by
    rw [hcum, cumOfPts_length, cum_getD _ _ (by omega), htot]
  constructor
  · have hclamp : Clamp 0 0 r.totalLen = 0 := by
      unfold Clamp
      rw [if_neg (lt_irrefl 0), if_neg (not_lt.mpr htotnn)]
    have hspec := findSeg_spec r.cumLen 0 (by omega) (by rw [hlast]; exact htotnn)
    have hcnn : ∀ j, j < r.pts.length → 0 ≤ r.cumLen.getD j 0 := by
      intro j hj
      rw [hcum, cum_getD _ _ hj]
      exact partialLen_nonneg _ _
    have hfs : findSeg r.cumLen 0 = 0 := by
      by_contra hne
      have hlt := hspec.2.1 (Nat.pos_of_ne_zero hne)
      have hnn := hcnn (findSeg r.cumLen 0) (by omega)
      linarith
    have hcz : r.cumLen.getD 0 0 = 0 := by
      rw [hcum, cum_getD _ _ (by omega)]
      simp [partialLen]
    have ha : (r.pts.getD 0 defVec).y = 0 := hy _ (getD_mem _ _ _ (by omega))
    unfold Road.pointAt
    rw [if_neg hguard]
    simp only [hclamp, hfs, hcz]
    simp only [vadd, vscale, vsub, sub_self, zero_div, zero_mul, add_zero]
    exact vec3_eta_y0 _ ha
  · have hclamp : Clamp r.totalLen 0 r.totalLen = r.totalLen := by
      unfold Clamp
      rw [if_neg (not_lt.mpr htotnn), if_neg (lt_irrefl _)]
    have hspec := findSeg_spec r.cumLen r.totalLen (by omega) (le_of_eq hlast.symm)
    have hfs : findSeg r.cumLen r.totalLen = r.pts.length - 2 := by
      by_contra hne
      have hchain := getD_chain_lt r.cumLen hmono (findSeg r.cumLen r.totalLen + 1)
        (r.cumLen.length - 1) (by omega) (by omega)
      rw [hlast] at hchain
      exact hspec.2.2 hchain
    have hsegL := hseg (r.pts.length - 2) (by omega)
    have hLpos : 0 < LenXZ (r.pts.getD (r.pts.length - 2) defVec)
        (r.pts.getD (r.pts.length - 2 + 1) defVec) := lt_of_lt_of_le heps hsegL
    have hmax : max EPS6 (LenXZ (r.pts.getD (r.pts.length - 2) defVec)
        (r.pts.getD (r.pts.length - 2 + 1) defVec)) =
        LenXZ (r.pts.getD (r.pts.length - 2) defVec)
          (r.pts.getD (r.pts.length - 2 + 1) defVec) := max_eq_right hsegL
    have hcumv : r.cumLen.getD (r.pts.length - 2) 0 = partialLen r.pts (r.pts.length - 2) := by
      rw [hcum, cum_getD _ _ (by omega)]
    have hnum : r.totalLen - partialLen r.pts (r.pts.length - 2) =
        LenXZ (r.pts.getD (r.pts.length - 2) defVec)
          (r.pts.getD (r.pts.length - 2 + 1) defVec) := by
      rw [htot, show r.pts.length - 1 = (r.pts.length - 2) + 1 by omega,
        partialLen_succ _ _ (by omega)]
      ring
    have hb : (r.pts.getD (r.pts.length - 2 + 1) defVec).y = 0 :=
      hy _ (getD_mem _ _ _ (by omega))
    unfold Road.pointAt
    rw [if_neg hguard]
    simp only [hclamp, hfs, hmax, hcumv, hnum, div_self (ne_of_gt hLpos)]
    simp only [vadd, vscale, vsub, one_mul]
    rw [show r.pts.length - 2 + 1 = r.pts.length - 1 from by omega] at hb ⊢
    exact vec3_lerp_one _ _ hb

/-! ### Closest-point lemmas for C7 -/

theorem segDistSq_nonneg (r : Road) (p : Vec3) (j : ℕ) : 0 ≤ segDistSq r p j :=
  add_nonneg (mul_self_nonneg _) (mul_self_nonneg _)

theorem foldl_closest_pos (r : Road) (p : Vec3) (l : List ℕ) :
    ∀ acc : ClosestAcc, 0 < acc.bestDistSq → (∀ j ∈ l, 0 < segDistSq r p j) →
      0 < (l.foldl (closestStep r p) acc).bestDistSq := by
  induction l with
  | nil => exact fun acc hacc _ => hacc
  | cons x xs ih =>
    intro acc hacc hl
    refine ih _ ?_ fun j hj => hl j (List.mem_cons_of_mem _ hj)
    unfold closestStep
    split
    · exact hl x (List.mem_cons_self x xs)
    · exact hacc

theorem foldl_closest_frozen (r : Road) (p : Vec3) (l : List ℕ) :
    ∀ acc : ClosestAcc, acc.bestDistSq = 0 → l.foldl (closestStep r p) acc = acc := by
  induction l with
  | nil => exact fun acc _ => rfl
  | cons x xs ih =>
    intro acc h0
    rw [List.foldl_cons,
      show closestStep r p acc x = acc from by
        unfold closestStep
        rw [if_neg (by rw [h0]; exact not_lt.mpr (segDistSq_nonneg r p x))]]
    exact ih acc h0

theorem closestStep_win (r : Road) (p : Vec3) (acc : ClosestAcc) (j : ℕ)
    (h1 : segDistSq r p j = 0) (h2 : 0 < acc.bestDistSq) :
    closestStep r p acc j = ⟨0, segAlong r p j, segTan r j⟩ := by
  unfold closestStep
  rw [h1, if_pos h2]

theorem closestParam_lerp (a b : Vec3) (t : ℚ) (ht0 : 0 ≤ t) (ht1 : t ≤ 1)
    (hab : EPS8 < dist2XZ a b) :
    ClosestParamOnSegmentXZ ⟨a.x + t * (b.x - a.x), 0, a.z + t * (b.z - a.z)⟩ a b =
      (t, ⟨a.x + t * (b.x - a.x), 0, a.z + t * (b.z - a.z)⟩) := by
  unfold dist2XZ at hab
  have habne : (b.x - a.x) * (b.x - a.x) + (b.z - a.z) * (b.z - a.z) ≠ 0 := by
    have heps8 : (0 : ℚ) < EPS8 := by norm_num [EPS8]
    intro h
    rw [h] at hab
    linarith
  unfold ClosestParamOnSegmentXZ
  dsimp only
  rw [if_pos hab]
  have ht0eq : ((a.x + t * (b.x - a.x) - a.x) * (b.x - a.x) +
      (a.z + t * (b.z - a.z) - a.z) * (b.z - a.z)) /
      ((b.x - a.x) * (b.x - a.x) + (b.z - a.z) * (b.z - a.z)) = t := by
    field_simp
    ring
  rw [ht0eq]
  have hclamp : Clamp t 0 1 = t := by
    unfold Clamp
    rw [if_neg (not_lt.mpr ht0), if_neg (not_lt.mpr ht1)]
  rw [hclamp]
  simp only [vadd, vscale, vsub, Prod.mk.injEq, Vec3.mk.injEq]

theorem closestDistance_eq (r : Road) (p : Vec3) (h2 : ¬ r.pts.length < 2) :
    ClosestDistanceAlongRoadSq r p =
      (List.range (r.pts.length - 1)).foldl (closestStep r p) ⟨BIG, 0, ⟨1, 0, 0⟩⟩ := by
  unfold ClosestDistanceAlongRoadSq
  rw [if_neg h2]

/-- C7 (amended): for a road with nondegenerate segments and a
consistent cumulative array, and `d ∈ [0, totalLen]`, the closest-point
query at `pointAt d` returns exactly `d` (distance 0) — hence within any
sample step — provided no segment earlier than the one containing `d`
passes through the queried position.  A self-overlapping road violates
the claim (`C7_counterexample`): the scan keeps the first minimal
segment, which can sit arbitrarily far in arc length from `d`. -/
theorem C7_roundtrip_exact (r : Road) (d : ℚ)
    (h2 : 2 ≤ r.pts.length)
    (hcum : r.cumLen = cumOfPts r.pts)
    (hseg : ∀ i < r.pts.length - 1,
      EPS6 ≤ LenXZ (r.pts.getD i defVec) (r.pts.getD (i + 1) defVec))
    (hseg2 : ∀ i < r.pts.length - 1,
      EPS8 < dist2XZ (r.pts.getD i defVec) (r.pts.getD (i + 1) defVec))
    (hd0 : 0 ≤ d) (hd1 : d ≤ r.totalLen)
    (hnoover : ∀ j < findSeg r.cumLen d, 0 < segDistSq r (r.pointAt d).1 j) :
    (ClosestDistanceAlongRoadSq r (r.pointAt d).1).bestAlong = d ∧
      (ClosestDistanceAlongRoadSq r (r.pointAt d).1).bestDistSq = 0 := by
  have hlen : r.cumLen.length = r.pts.length := by rw [hcum, cumOfPts_length]
  have hguard : ¬ (r.pts.length < 2 ∨ r.cumLen.length ≠ r.pts.length) := by
    push_neg
    exact ⟨by omega, hlen⟩
  have heps : (0 : ℚ) < EPS6 := by norm_num [EPS6]
  have htot : r.totalLen = partialLen r.pts (r.pts.length - 1) := totalLen_eq r h2 hcum
  have hlast : r.cumLen.getD (r.cumLen.length - 1) 0 = r.totalLen := by
    rw [hcum, cumOfPts_length, cum_getD _ _ (by omega), htot]
  have hclamp : Clamp d 0 r.totalLen = d := by
    unfold Clamp
    rw [if_neg (not_lt.mpr hd0), if_neg (not_lt.mpr hd1)]
  have hspec := findSeg_spec r.cumLen d (by omega) (by rw [hlast]; exact hd1)
  obtain ⟨fs, hfs⟩ : ∃ n, findSeg r.cumLen d = n := ⟨_, rfl⟩
  rw [hfs] at hspec hnoover
  have hi2 : fs + 2 ≤ r.pts.length := by omega
  have hcumi : r.cumLen.getD (fs) 0 =
      partialLen r.pts (fs) := by
    rw [hcum, cum_getD _ _ (by omega)]
  have hcumi1 : r.cumLen.getD (fs + 1) 0 =
      partialLen r.pts (fs) +
        LenXZ (r.pts.getD (fs) defVec)
          (r.pts.getD (fs + 1) defVec) := by
    rw [hcum, cum_getD _ _ (by omega), partialLen_succ _ _ (by omega)]
  have hcile : r.cumLen.getD (fs) 0 ≤ d := by
    rcases Nat.eq_zero_or_pos (fs) with h0 | hpos
    · rw [h0, hcum, cum_getD _ _ (by omega)]
      simpa [partialLen] using hd0
    · exact le_of_lt (hspec.2.1 hpos)
  have hdle : d ≤ r.cumLen.getD (fs + 1) 0 := not_lt.mp hspec.2.2
  have hsegi := hseg (fs) (by omega)
  have hsegi2 := hseg2 (fs) (by omega)
  have hLpos : 0 < LenXZ (r.pts.getD (fs) defVec)
      (r.pts.getD (fs + 1) defVec) := lt_of_lt_of_le heps hsegi
  have hmax : max EPS6 (LenXZ (r.pts.getD (fs) defVec)
      (r.pts.getD (fs + 1) defVec)) =
      LenXZ (r.pts.getD (fs) defVec)
        (r.pts.getD (fs + 1) defVec) := max_eq_right hsegi
  have ht0 : 0 ≤ (d - r.cumLen.getD (fs) 0) /
      LenXZ (r.pts.getD (fs) defVec)
        (r.pts.getD (fs + 1) defVec) :=
    div_nonneg (by linarith) (le_of_lt hLpos)
  have ht1 : (d - r.cumLen.getD (fs) 0) /
      LenXZ (r.pts.getD (fs) defVec)
        (r.pts.getD (fs + 1) defVec) ≤ 1 := by
    rw [div_le_one hLpos]
    rw [hcumi1] at hdle
    rw [hcumi]
    linarith
  have htL : (d - r.cumLen.getD (fs) 0) /
      LenXZ (r.pts.getD (fs) defVec)
        (r.pts.getD (fs + 1) defVec) *
      LenXZ (r.pts.getD (fs) defVec)
        (r.pts.getD (fs + 1) defVec) =
      d - r.cumLen.getD (fs) 0 := by
    rw [div_mul_eq_mul_div, mul_div_assoc, div_self (ne_of_gt hLpos), mul_one]
  have hpt : (r.pointAt d).1 =
      ⟨(r.pts.getD (fs) defVec).x +
          (d - r.cumLen.getD (fs) 0) /
            LenXZ (r.pts.getD (fs) defVec)
              (r.pts.getD (fs + 1) defVec) *
            ((r.pts.getD (fs + 1) defVec).x -
              (r.pts.getD (fs) defVec).x),
        0,
        (r.pts.getD (fs) defVec).z +
          (d - r.cumLen.getD (fs) 0) /
            LenXZ (r.pts.getD (fs) defVec)
              (r.pts.getD (fs + 1) defVec) *
            ((r.pts.getD (fs + 1) defVec).z -
              (r.pts.getD (fs) defVec).z)⟩ := by
    unfold Road.pointAt
    rw [if_neg hguard]
    dsimp only
    rw [hclamp, hfs, hmax]
    simp only [vadd, vscale, vsub]
  have hcp := closestParam_lerp (r.pts.getD (fs) defVec)
    (r.pts.getD (fs + 1) defVec)
    ((d - r.cumLen.getD (fs) 0) /
      LenXZ (r.pts.getD (fs) defVec)
        (r.pts.getD (fs + 1) defVec)) ht0 ht1 hsegi2
  have hds : segDistSq r (r.pointAt d).1 (fs) = 0 := by
    rw [hpt]
    unfold segDistSq
    dsimp only
    rw [hcp]
    dsimp only
    ring
  have hal : segAlong r (r.pointAt d).1 (fs) = d := by
    rw [hpt]
    unfold segAlong
    dsimp only
    rw [hcp]
    dsimp only
    rw [if_pos (show fs < r.cumLen.length from by omega), htL]
    ring
  rw [closestDistance_eq r _ (by omega)]
  rw [show r.pts.length - 1 =
      fs + (r.pts.length - 1 - fs) from by omega,
    List.range_add]
  rw [show r.pts.length - 1 - fs =
      r.pts.length - 2 - fs + 1 from by omega,
    List.range_succ_eq_map]
  simp only [List.map_cons, Nat.add_zero]
  rw [List.foldl_append, List.foldl_cons]
  have hpre : 0 < ((List.range (fs)).foldl (closestStep r (r.pointAt d).1)
      ⟨BIG, 0, ⟨1, 0, 0⟩⟩).bestDistSq := by
    refine foldl_closest_pos _ _ _ _ (by norm_num [BIG]) ?_
    intro j hj
    exact hnoover j (List.mem_range.mp hj)
  rw [closestStep_win r (r.pointAt d).1 _ (fs) hds hpre, hal,
    foldl_closest_frozen _ _ _ _ rfl]
  exact ⟨rfl, rfl⟩

/-- C7 counterexample: `roadBack` goes out 100 m along the x axis and
comes straight back, so it satisfies every hypothesis of the claim
(two-plus points, consistent cumulative array, nondegenerate segments,
`d = 180 ∈ [0, totalLen = 200]`), yet `pointAt 180 = (20,0,0)` also lies
on the first segment and the scan keeps the first minimal segment:
`closestAlong` returns 20, an error of 160 m — far more than one
`ZONE_CELL_M` sample step. -/
theorem C7_counterexample :
    2 ≤ roadBack.pts.length ∧
      roadBack.cumLen = cumOfPts roadBack.pts ∧
      (∀ i < roadBack.pts.length - 1,
        EPS6 ≤ LenXZ (roadBack.pts.getD i defVec)
          (roadBack.pts.getD (i + 1) defVec)) ∧
      (0 : ℚ) ≤ 180 ∧ (180 : ℚ) ≤ roadBack.totalLen ∧
      (ClosestDistanceAlongRoadSq roadBack (roadBack.pointAt 180).1).bestAlong
        = 20 ∧
      ZONE_CELL_M < (180 : ℚ) - 20 := by
  refine ⟨by decide, by decide, by decide, by decide, by decide, ?_, by decide⟩
  decide

/-- witness for `C7_roundtrip_exact`: the simple L-shaped road `roadL`
at `d = 20` (on its second segment). -/
theorem C7_roundtrip_exact_witness :
    (ClosestDistanceAlongRoadSq roadL (roadL.pointAt 20).1).bestAlong = 20 ∧
      (ClosestDistanceAlongRoadSq roadL (roadL.pointAt 20).1).bestDistSq = 0 :=
  C7_roundtrip_exact roadL 20 (by decide) (by decide) (by decide) (by decide)
    (by decide) (by decide) (by decide)

/-- witness for `C8_pointAt_endpoints`: the L-shaped road `roadL`. -/
theorem C8_pointAt_endpoints_witness :
    (roadL.pointAt 0).1 = roadL.pts.getD 0 defVec ∧
      (roadL.pointAt roadL.totalLen).1 =
        roadL.pts.getD (roadL.pts.length - 1) defVec :=
  C8_pointAt_endpoints roadL (by decide) (by decide) (by decide) (by decide)

/-- C1 (code bug): `CmdAddRoad::doIt` only appends while `applied` is
false, and `applied` is never reset by `undoIt`; so after apply, undo,
redo the road list is empty instead of holding the road again — redo
does not restore the post-command state. -/
theorem C1_redo_does_not_restore :
    (exec (stEmpty, ⟨[], []⟩) (.addRoad roadC1 false)).1.roads = [roadC1] ∧
      (doRedo (doUndo (exec (stEmpty, ⟨[], []⟩) (.addRoad roadC1 false)))).1.roads = [] := by
  constructor
  · rfl
  · rfl

/-- C6 (code bug): starting from a world with one road, a strip that
passes the creation-time overlap check is added, the road's zones are
cleared, and then undo, redo, undo of the clear duplicates the strip
(`CmdClearZonesForRoad::doIt` no-ops on redo because `applied` is never
reset, while its `undoIt` appends the recorded strips again).  The
resulting reachable state holds two strips on the same road sharing a
side with overlapping intervals. -/
theorem C6_overlap_invariant_broken :
    ZoneOverlapsExisting stRoad 1 0 8 = false ∧
      (let e1 := exec (stRoad, ⟨[], []⟩) (.addZone zC6 false)
       let e2 := exec e1
         (.clearZonesForRoad 1 (e1.1.zones.filter fun z => z.roadId = 1) false)
       let fin := doUndo (doRedo (doUndo e2))
       fin.1.zones = [zC6, zC6]) ∧
      zC6.sideMask &&& zC6.sideMask ≠ 0 ∧
      ZonesOverlap zC6.d0 zC6.d1 zC6.d0 zC6.d1 = true := by
  refine ⟨by decide, by decide, by decide, by decide⟩

/-- C2 counterexample: `CmdClearZonesForRoad::undoIt` pushes the removed
strips at the end of the zone list, so with a road-1 strip stored before
a road-2 strip, apply followed by undo yields the list in a different
order — not bit-for-bit equality. -/
theorem C2_counterexample :
    (let r1 := (Cmd.clearZonesForRoad 1 (stC2.zones.filter fun z => z.roadId = 1) false).doIt stC2
     let r2 := r1.2.undoIt r1.1
     r2.1.zones = [zOther, zC6] ∧ stC2.zones = [zC6, zOther] ∧ r2.1.zones ≠ stC2.zones) := by
  refine ⟨by decide, by decide, by decide⟩

/-- C9: `ExtendRoad`, `MoveRoadPoint` and `DeleteRoadPoint` whose target
road id matches no road are silent no-ops in both `doIt` and `undoIt`:
the whole state (in particular the road and zone lists) is unchanged,
and — being total functions — nothing is thrown. -/
theorem C9_missing_road_noop (s : AppState) (rid : ℤ)
    (h : FindRoadIndexById s.roads rid = none) :
    (∀ (added : List Vec3) (atStart : Bool),
      ((Cmd.extendRoad rid added atStart).doIt s).1 = s ∧
        ((Cmd.extendRoad rid added atStart).undoIt s).1 = s)
    ∧ (∀ (pIdx : ℤ) (op np : Vec3),
        ((Cmd.moveRoadPoint rid pIdx op np).doIt s).1 = s ∧
          ((Cmd.moveRoadPoint rid pIdx op np).undoIt s).1 = s)
    ∧ (∀ (pIdx : ℤ) (rm : Vec3) (did : Bool),
        ((Cmd.deleteRoadPoint rid pIdx rm did).doIt s).1 = s ∧
          ((Cmd.deleteRoadPoint rid pIdx rm did).undoIt s).1 = s) := by
  refine ⟨fun added atStart => ⟨?_, ?_⟩, fun pIdx op np => ⟨?_, ?_⟩,
    fun pIdx rm did => ⟨?_, ?_⟩⟩
  · simp [Cmd.doIt, h]
  · simp [Cmd.undoIt, h]
  · simp [Cmd.doIt, h]
  · simp [Cmd.undoIt, h]
  · simp [Cmd.doIt, h]
  · simp [Cmd.undoIt, h]

/-- C9 witness: the empty world has no road 7; extending it is a no-op. -/
theorem C9_missing_road_noop_witness :
    ((Cmd.extendRoad 7 [⟨1, 0, 1⟩] false).doIt stEmpty).1 = stEmpty ∧
      ((Cmd.deleteRoadPoint 7 0 defVec true).undoIt stEmpty).1 = stEmpty :=
  ⟨((C9_missing_road_noop stEmpty 7 (by decide)).1 [⟨1, 0, 1⟩] false).1,
    ((C9_missing_road_noop stEmpty 7 (by decide)).2.2 0 defVec true).2⟩

/-- C5: with `animate = false`, `RebuildHousesFromLots` never reads the
clock (`nowSec` only enters the spawn-animation branch), and, being a
pure function of the world state and asset catalog, two runs on the same
state yield the same building instances, positions, assets, scales,
yaws and seeds. -/
theorem C5_placement_deterministic (atan2I : ℚ → ℚ → ℚ) (s : AppState)
    (assets : AssetCatalog) (t1 t2 : ℚ) :
    RebuildHousesFromLots atan2I s assets false t1 =
      RebuildHousesFromLots atan2I s assets false t2 := by
  unfold RebuildHousesFromLots
  have hstep : placeStep atan2I s assets false t1 = placeStep atan2I s assets false t2 := by
    funext acc c
    simp only [placeStep, Bool.false_eq_true, if_false]
  rw [hstep]

end CityO
